import Mathlib

/-!
I-frame extraction driver: embedding and verified properties.

A shallow embedding of `src/video.cpp` and `src/main.cpp`.

The program is a sequential driver over the FFmpeg demux/decode library.  The
library is external, so its answers are data here: a `Lib` value fixes what
every library call answers, and each embedded function returns, next to its
result, the list of library calls it made (`Call`), in order.  Handles returned
by the library are natural numbers drawn from a counter, so two acquisitions
never return the same handle.
-/

namespace IFrames

/-! ## Library constants and data -/

/-- Value of `AVERROR_EOF`, that is `-MKTAG('E','O','F',' ')`. -/
def AVERROR_EOF : Int := -541478725

/-- Value of `AVERROR(EAGAIN)`; `EAGAIN` is 11. -/
def AVERROR_EAGAIN : Int := -11

/-- Value of `AVERROR(ENOMEM)`; `ENOMEM` is 12. -/
def AVERROR_ENOMEM : Int := -12

/-- Value of `AV_NOPTS_VALUE`, the timestamp of a picture without one: `INT64_MIN`. -/
def AV_NOPTS_VALUE : Int := -9223372036854775808

/-- Library handle (a pointer returned by an allocating call). -/
abbrev Handle := Nat

/-- Library decoder descriptor (`const AVCodec*`), a static object of the library. -/
abbrev AVCodec := Nat

/-- The enumeration `AVMediaType`. -/
inductive AVMediaType where
  | UNKNOWN | VIDEO | AUDIO | DATA | SUBTITLE | ATTACHMENT | NB
  deriving DecidableEq, Repr

/-- The enumeration `AVPictureType`. -/
inductive AVPictureType where
  | NONE | I | P | B | S | SI | SP | BI
  deriving DecidableEq, Repr

/-- The fields of `AVStream::codecpar` the program reads. -/
structure AVStream where
  codec_type : AVMediaType
  codec_id : Nat
  deriving DecidableEq, Repr

/-- The fields of `AVPacket` the program reads, and a tag standing for its payload. -/
structure AVPacket where
  stream_index : Int
  data : Nat
  deriving DecidableEq, Repr

/-- The fields of `AVFrame` the program reads. -/
structure AVFrame where
  pts : Int
  pict_type : AVPictureType
  deriving DecidableEq, Repr

/-- One answer of `av_read_frame`: the return code and the packet it filled. -/
structure ReadResp where
  ret : Int
  packet : AVPacket
  deriving DecidableEq, Repr

/-- What one iteration of the receive loop of `process_packet` meets: whether its
`av_frame_alloc` succeeds, the return code of `avcodec_receive_frame`, the picture
it delivered, and whether `av_frame_clone` of that picture succeeds. -/
structure DrainStep where
  alloc_ok : Bool
  ret : Int
  frame : AVFrame
  clone_ok : Bool
  deriving DecidableEq, Repr

/-- The decoder's answer to one `avcodec_send_packet`: the return code, and the
receive-loop iterations that follow.  Once `steps` is used up the allocation
succeeds and the decoder answers `AVERROR(EAGAIN)`. -/
structure FeedResp where
  send_ret : Int
  steps : List DrainStep
  deriving DecidableEq, Repr

/-- What the library finds at a path. -/
structure Source where
  open_ret : Int
  stream_info_ret : Int
  streams : List AVStream
  reads : List ReadResp

/-- The answers of the library.  `decoder fed` is the answer to the feed of the
last packet of `fed`, the packets fed so far; `next` is the next fresh handle. -/
structure Lib where
  source : String → Source
  find_decoder : Nat → Option AVCodec
  alloc_context_ok : Bool
  parameters_ret : Int
  open2_ret : Int
  frame_alloc_ok : Bool
  decoder : List AVPacket → FeedResp
  next : Handle

/-- A library call together with what it answered. -/
inductive Call where
  | avformat_open_input (url : String) (ret : Int) (ctx : Handle)
  | avformat_find_stream_info (ctx : Handle) (ret : Int)
  | avcodec_find_decoder (codec_id : Nat) (found : Option AVCodec)
  | avcodec_alloc_context3 (codec : AVCodec) (ctx : Option Handle)
  | avcodec_parameters_to_context (ctx : Handle) (stream : Int) (ret : Int)
  | avcodec_open2 (ctx : Handle) (codec : AVCodec) (ret : Int)
  | av_frame_alloc (frame : Option Handle)
  | av_frame_free (frame : Option Handle)
  | avcodec_close (ctx : Handle)
  | avcodec_free_context (ctx : Handle)
  | avformat_close_input (ctx : Handle)
  | av_read_frame (ctx : Handle) (ret : Int) (pkt : Option AVPacket)
  | av_packet_unref (pkt : AVPacket)
  | avcodec_send_packet (ctx : Handle) (pkt : AVPacket) (ret : Int)
  | avcodec_receive_frame (ctx : Handle) (ret : Int) (pic : Option AVFrame)
  | av_frame_clone (src : AVFrame) (copy : Option Handle)
  deriving DecidableEq, Repr

/-! ## The session object -/

/-- The `AVFormatContext` fields the program reads: the handle itself and `url`,
which `avformat_open_input` sets to the file name it was given. -/
structure AVFormatContext where
  handle : Handle
  url : String
  deriving DecidableEq, Repr

/-- The data members of `class Video`. -/
structure Video where
  format_context : Option AVFormatContext
  codec : Option AVCodec
  codec_context : Option Handle
  frame : Option Handle
  video_stream_index : Int
  deriving DecidableEq, Repr

/-- How a C++ function ends: a value, a thrown `std::runtime_error`, or undefined
behaviour (a null or out-of-range access). -/
inductive Outcome (α : Type) where
  | ok (a : α)
  | throw (what : String)
  | undefined
  deriving DecidableEq, Repr

/-- Result of running a constructor: how it ended, the library calls made, and
the next fresh handle afterwards. -/
structure Built where
  result : Outcome Video
  calls : List Call
  next : Handle
  deriving DecidableEq, Repr

/-- The conversion `static_cast<int>(i)` of an `unsigned int`. -/
def static_cast_int (i : Nat) : Int :=
  if i % 2 ^ 32 < 2 ^ 31 then ((i % 2 ^ 32 : Nat) : Int) else ((i % 2 ^ 32 : Nat) : Int) - 2 ^ 32

/-- The stream search loop of the constructors: `streams` is what is left to scan
from index `i` on, and `video_stream_index` the value held so far. -/
def find_video_stream : List AVStream → Nat → Int → Int
  | [], _, video_stream_index => video_stream_index
  | s :: rest, i, video_stream_index =>
    if s.codec_type = AVMediaType.VIDEO then static_cast_int i
    else find_video_stream rest (i + 1) video_stream_index

/-- The element `streams[index]`, when there is one. -/
def stream_at (streams : List AVStream) (index : Int) : Option AVStream :=
  if index < 0 then none else streams.get? index.toNat

/-- The constructor `Video::Video(const std::string& filename)`. -/
def Video_ctor (lib : Lib) (filename : String) : Built :=
  let src := lib.source filename
  let fc : Handle := lib.next
  let c_open := Call.avformat_open_input filename src.open_ret fc
  if src.open_ret < 0 then
    ⟨.throw "Error opening video file", [c_open], lib.next⟩
  else
  let c_info := Call.avformat_find_stream_info fc src.stream_info_ret
  if src.stream_info_ret < 0 then
    ⟨.throw "Error finding stream information",
      [c_open, c_info, .avformat_close_input fc], fc + 1⟩
  else
  let video_stream_index := find_video_stream src.streams 0 (-1)
  if video_stream_index = -1 then
    ⟨.throw "Error finding video stream", [c_open, c_info, .avformat_close_input fc], fc + 1⟩
  else
  match stream_at src.streams video_stream_index with
  | none => ⟨.undefined, [c_open, c_info], fc + 1⟩
  | some st =>
  let c_find := Call.avcodec_find_decoder st.codec_id (lib.find_decoder st.codec_id)
  match lib.find_decoder st.codec_id with
  | none =>
    ⟨.throw "Error finding codec", [c_open, c_info, c_find, .avformat_close_input fc], fc + 1⟩
  | some codec =>
  if !lib.alloc_context_ok then
    ⟨.throw "Error allocating codec context",
      [c_open, c_info, c_find, .avcodec_alloc_context3 codec none, .avformat_close_input fc],
      fc + 1⟩
  else
  let cc : Handle := fc + 1
  let c_ctx := Call.avcodec_alloc_context3 codec (some cc)
  let c_par := Call.avcodec_parameters_to_context cc video_stream_index lib.parameters_ret
  if lib.parameters_ret < 0 then
    ⟨.throw "Error copying codec parameters",
      [c_open, c_info, c_find, c_ctx, c_par, .avcodec_free_context cc, .avformat_close_input fc],
      fc + 2⟩
  else
  let c_op2 := Call.avcodec_open2 cc codec lib.open2_ret
  if lib.open2_ret < 0 then
    ⟨.throw "Error opening codec",
      [c_open, c_info, c_find, c_ctx, c_par, c_op2, .avcodec_free_context cc,
        .avformat_close_input fc],
      fc + 2⟩
  else
  if !lib.frame_alloc_ok then
    ⟨.throw "Error allocating frame",
      [c_open, c_info, c_find, c_ctx, c_par, c_op2, .av_frame_alloc none, .avcodec_close cc,
        .avcodec_free_context cc, .avformat_close_input fc],
      fc + 2⟩
  else
  let fr : Handle := fc + 2
  ⟨.ok ⟨some ⟨fc, filename⟩, some codec, some cc, some fr, video_stream_index⟩,
    [c_open, c_info, c_find, c_ctx, c_par, c_op2, .av_frame_alloc (some fr)], fc + 3⟩

/-- The copy constructor `Video::Video(const Video& other)`; it reads of `other`
only `other.format_context->url`. -/
def Video_copy_ctor (lib : Lib) (other : Video) : Built :=
  match other.format_context with
  | none => ⟨.undefined, [], lib.next⟩
  | some other_fc =>
  let src := lib.source other_fc.url
  let fc : Handle := lib.next
  let c_open := Call.avformat_open_input other_fc.url src.open_ret fc
  if src.open_ret < 0 then
    ⟨.throw "Error opening video file", [c_open], lib.next⟩
  else
  let c_info := Call.avformat_find_stream_info fc src.stream_info_ret
  if src.stream_info_ret < 0 then
    ⟨.throw "Error finding stream information",
      [c_open, c_info, .avformat_close_input fc], fc + 1⟩
  else
  let video_stream_index := find_video_stream src.streams 0 (-1)
  if video_stream_index = -1 then
    ⟨.throw "Error finding video stream", [c_open, c_info, .avformat_close_input fc], fc + 1⟩
  else
  match stream_at src.streams video_stream_index with
  | none => ⟨.undefined, [c_open, c_info], fc + 1⟩
  | some st =>
  let c_find := Call.avcodec_find_decoder st.codec_id (lib.find_decoder st.codec_id)
  match lib.find_decoder st.codec_id with
  | none =>
    ⟨.throw "Error finding codec", [c_open, c_info, c_find, .avformat_close_input fc], fc + 1⟩
  | some codec =>
  if !lib.alloc_context_ok then
    ⟨.throw "Error allocating codec context",
      [c_open, c_info, c_find, .avcodec_alloc_context3 codec none, .avformat_close_input fc],
      fc + 1⟩
  else
  let cc : Handle := fc + 1
  let c_ctx := Call.avcodec_alloc_context3 codec (some cc)
  let c_par := Call.avcodec_parameters_to_context cc video_stream_index lib.parameters_ret
  if lib.parameters_ret < 0 then
    ⟨.throw "Error copying codec parameters",
      [c_open, c_info, c_find, c_ctx, c_par, .avcodec_free_context cc, .avformat_close_input fc],
      fc + 2⟩
  else
  let c_op2 := Call.avcodec_open2 cc codec lib.open2_ret
  if lib.open2_ret < 0 then
    ⟨.throw "Error opening codec",
      [c_open, c_info, c_find, c_ctx, c_par, c_op2, .avcodec_free_context cc,
        .avformat_close_input fc],
      fc + 2⟩
  else
  if !lib.frame_alloc_ok then
    ⟨.throw "Error allocating frame",
      [c_open, c_info, c_find, c_ctx, c_par, c_op2, .av_frame_alloc none, .avcodec_close cc,
        .avcodec_free_context cc, .avformat_close_input fc],
      fc + 2⟩
  else
  let fr : Handle := fc + 2
  ⟨.ok ⟨some ⟨fc, other_fc.url⟩, some codec, some cc, some fr, video_stream_index⟩,
    [c_open, c_info, c_find, c_ctx, c_par, c_op2, .av_frame_alloc (some fr)], fc + 3⟩

/-- The destructor `Video::~Video()`: the library calls it makes. -/
def Video_dtor (v : Video) : List Call :=
  [Call.av_frame_free v.frame]
    ++ (match v.codec_context with
        | some cc => [Call.avcodec_close cc, Call.avcodec_free_context cc]
        | none => [])
    ++ (match v.format_context with
        | some fc => [Call.avformat_close_input fc.handle]
        | none => [])

/-! ## Extraction -/

/-- What `process_packet` and `process_iframe` leave behind: the return code, the
vector `i_frames`, the next fresh handle and the library calls made. -/
structure PacketResult where
  ret : Int
  i_frames : List AVFrame
  next : Handle
  calls : List Call
  deriving DecidableEq, Repr

/-- The method `Video::process_iframe`; `clone_ok` is whether `av_frame_clone`
succeeds.  The clone has the fields of the picture it copies. -/
def process_iframe (frame : AVFrame) (clone_ok : Bool) (i_frames : List AVFrame)
    (next : Handle) : PacketResult :=
  if !clone_ok then
    ⟨AVERROR_ENOMEM, i_frames, next, [.av_frame_clone frame none]⟩
  else
    ⟨0, i_frames ++ [frame], next + 1, [.av_frame_clone frame (some next)]⟩

/-- The loop `while (ret >= 0)` of `process_packet`: `ret` is the value the loop
condition tests, the list is what the coming iterations meet. -/
def receive_loop (cc : Handle) : List DrainStep → Int → List AVFrame → Handle → PacketResult
  | [], ret, i_frames, next =>
    if ret < 0 then ⟨0, i_frames, next, []⟩
    else
      ⟨0, i_frames, next + 1,
        [.av_frame_alloc (some next), .avcodec_receive_frame cc AVERROR_EAGAIN none,
          .av_frame_free (some next)]⟩
  | s :: rest, ret, i_frames, next =>
    if ret < 0 then ⟨0, i_frames, next, []⟩
    else if !s.alloc_ok then ⟨AVERROR_ENOMEM, i_frames, next, [.av_frame_alloc none]⟩
    else
      let c_alloc := Call.av_frame_alloc (some next)
      let c_recv := Call.avcodec_receive_frame cc s.ret (if 0 ≤ s.ret then some s.frame else none)
      let c_free := Call.av_frame_free (some next)
      if s.ret = AVERROR_EAGAIN ∨ s.ret = AVERROR_EOF then
        ⟨0, i_frames, next + 1, [c_alloc, c_recv, c_free]⟩
      else if s.ret < 0 then
        ⟨s.ret, i_frames, next + 1, [c_alloc, c_recv, c_free]⟩
      else if s.frame.pict_type = AVPictureType.I then
        let r := process_iframe s.frame s.clone_ok i_frames (next + 1)
        if r.ret < 0 then
          ⟨r.ret, r.i_frames, r.next, [c_alloc, c_recv] ++ r.calls ++ [c_free]⟩
        else
          let t := receive_loop cc rest r.ret r.i_frames r.next
          ⟨t.ret, t.i_frames, t.next, [c_alloc, c_recv] ++ r.calls ++ [c_free] ++ t.calls⟩
      else
        let t := receive_loop cc rest s.ret i_frames (next + 1)
        ⟨t.ret, t.i_frames, t.next, [c_alloc, c_recv, c_free] ++ t.calls⟩

/-- The method `Video::process_packet`; `resp` is the decoder's answer to this feed. -/
def process_packet (cc : Handle) (resp : FeedResp) (packet : AVPacket)
    (i_frames : List AVFrame) (next : Handle) : PacketResult :=
  let c_send := Call.avcodec_send_packet cc packet resp.send_ret
  if resp.send_ret < 0 then ⟨resp.send_ret, i_frames, next, [c_send]⟩
  else
    let t := receive_loop cc resp.steps resp.send_ret i_frames next
    ⟨t.ret, t.i_frames, t.next, c_send :: t.calls⟩

/-- Result of `extract_iframes`. -/
structure Extracted where
  result : Outcome (List AVFrame)
  calls : List Call
  next : Handle
  deriving DecidableEq, Repr

/-- The read loop of `extract_iframes` with the check that follows it.  The list
holds the answers of the coming `av_read_frame` calls; once it is used up the
container answers `AVERROR_EOF`.  `fed` holds the packets fed so far. -/
def read_loop (decoder : List AVPacket → FeedResp) (fc cc : Handle) (video_stream_index : Int) :
    List ReadResp → List AVPacket → List AVFrame → Handle → Extracted
  | [], _, i_frames, next => ⟨.ok i_frames, [.av_read_frame fc AVERROR_EOF none], next⟩
  | r :: rest, fed, i_frames, next =>
    let c_read := Call.av_read_frame fc r.ret (if r.ret = 0 then some r.packet else none)
    if r.ret = 0 then
      if r.packet.stream_index = video_stream_index then
        let p := process_packet cc (decoder (fed ++ [r.packet])) r.packet i_frames next
        if p.ret < 0 then
          ⟨.throw "Error processing packet",
            c_read :: (p.calls ++ [.av_packet_unref r.packet]), p.next⟩
        else
          let t := read_loop decoder fc cc video_stream_index rest (fed ++ [r.packet])
            p.i_frames p.next
          ⟨t.result, c_read :: (p.calls ++ [.av_packet_unref r.packet] ++ t.calls), t.next⟩
      else
        let t := read_loop decoder fc cc video_stream_index rest fed i_frames next
        ⟨t.result, c_read :: .av_packet_unref r.packet :: t.calls, t.next⟩
    else if r.ret ≠ AVERROR_EOF then
      ⟨.throw "Error reading frames from input file", [c_read], next⟩
    else ⟨.ok i_frames, [c_read], next⟩

/-- The method `Video::extract_iframes`, run on session `v`. -/
def extract_iframes (lib : Lib) (v : Video) : Extracted :=
  match v.format_context, v.codec_context with
  | some fc, some cc =>
    read_loop lib.decoder fc.handle cc v.video_stream_index (lib.source fc.url).reads [] []
      lib.next
  | _, _ => ⟨.undefined, [], lib.next⟩

/-! ## Entry point -/

/-- One insertion into a standard stream. -/
inductive Ins where
  | str (s : String)
  | cstr (p : Option String)
  | int (n : Int)
  | endl
  deriving DecidableEq, Repr

/-- The characters a sequence of insertions writes; `none` when a null character
pointer is inserted, which the stream does not define. -/
def render : List Ins → Option String
  | [] => some ""
  | .str s :: rest => (render rest).map (s ++ ·)
  | .cstr (some s) :: rest => (render rest).map (s ++ ·)
  | .cstr none :: _ => none
  | .int n :: rest => (render rest).map (toString n ++ ·)
  | .endl :: rest => (render rest).map ("\n" ++ ·)

/-- How the process ends: `main` returns a code, an exception leaves `main`
uncaught (`std::terminate`), or the behaviour is undefined. -/
inductive Exit where
  | returned (code : Int)
  | terminated (what : String)
  | undefined
  deriving DecidableEq, Repr

/-- What a run of the program did: how it ended, what `main` inserted into
`std::cout` and `std::cerr`, and the library calls made. -/
structure Run where
  exit : Exit
  stdout : List Ins
  stderr : List Ins
  calls : List Call
  deriving DecidableEq, Repr

/-- The insertions of one output line of `main`. -/
def frame_line (frame : AVFrame) : List Ins :=
  [.str "I-frame found at timestamp: ", .int frame.pts, .endl]

/-- The function `main`; `argv` holds the `argc` argument strings. -/
def main (lib : Lib) (argv : List String) : Run :=
  if (argv.length : Int) < 2 then
    ⟨.returned 1, [], [.str "Usage: ", .cstr (argv.get? 0), .str " <input_video>", .endl], []⟩
  else
  match argv.get? 1 with
  | none => ⟨.undefined, [], [], []⟩
  | some filename =>
  -- `Video video(argv[1]);` stands before the `try` block.
  let b := Video_ctor lib filename
  match b.result with
  | .throw what => ⟨.terminated what, [], [], b.calls⟩
  | .undefined => ⟨.undefined, [], [], b.calls⟩
  | .ok video =>
    let e := extract_iframes { lib with next := b.next } video
    match e.result with
    | .ok i_frames =>
      ⟨.returned 0, i_frames.flatMap frame_line, [], b.calls ++ e.calls ++ Video_dtor video⟩
    | .throw what =>
      ⟨.returned 1, [], [.str "Error: ", .str what, .endl],
        b.calls ++ e.calls ++ Video_dtor video⟩
    | .undefined => ⟨.undefined, [], [], b.calls ++ e.calls⟩

/-! ## Specification-side notions -/

/-- A resource the session holds: the open container, the decoder state, the
decoder opened on that state, the decode-output buffer. -/
inductive Resource where
  | container (h : Handle)
  | context (h : Handle)
  | opened (h : Handle)
  | buffer (h : Handle)
  deriving DecidableEq, Repr

/-- The resources a sequence of library calls acquires, in order. -/
def acquired : List Call → List Resource
  | [] => []
  | .avformat_open_input _ ret ctx :: rest =>
    if 0 ≤ ret then .container ctx :: acquired rest else acquired rest
  | .avcodec_alloc_context3 _ (some ctx) :: rest => .context ctx :: acquired rest
  | .avcodec_open2 ctx _ ret :: rest =>
    if 0 ≤ ret then .opened ctx :: acquired rest else acquired rest
  | .av_frame_alloc (some f) :: rest => .buffer f :: acquired rest
  | _ :: rest => acquired rest

/-- The resources a sequence of library calls releases, in order. -/
def released : List Call → List Resource
  | [] => []
  | .av_frame_free (some f) :: rest => .buffer f :: released rest
  | .avcodec_close ctx :: rest => .opened ctx :: released rest
  | .avcodec_free_context ctx :: rest => .context ctx :: released rest
  | .avformat_close_input ctx :: rest => .container ctx :: released rest
  | _ :: rest => released rest

/-- The handles a session object holds. -/
def Video.handles (v : Video) : List Handle :=
  (v.format_context.map (·.handle)).toList ++ v.codec_context.toList ++ v.frame.toList

/-- A receive-loop iteration in which the decoder delivers a picture. -/
def DrainStep.is_picture (s : DrainStep) : Bool := decide (0 ≤ s.ret)

/-- A key picture. -/
def AVFrame.is_key (f : AVFrame) : Bool := decide (f.pict_type = AVPictureType.I)

/-- The iterations of a feed in which the decoder delivers a picture: those
before the first negative return code. -/
def picture_steps (steps : List DrainStep) : List DrainStep := steps.takeWhile DrainStep.is_picture

/-- The iteration that ends the receive loop, when the script holds one. -/
def stop_step (steps : List DrainStep) : Option DrainStep :=
  (steps.dropWhile DrainStep.is_picture).head?

/-- The pictures the decoder makes available after a feed. -/
def offered (steps : List DrainStep) : List AVFrame := (picture_steps steps).map (·.frame)

/-- The receive that ends the loop signals needs-more-input or end-of-stream. -/
def receives_ok (steps : List DrainStep) : Bool :=
  match stop_step steps with
  | none => true
  | some s => decide (s.ret = AVERROR_EAGAIN ∨ s.ret = AVERROR_EOF)

/-- Every `av_frame_alloc` of the loop succeeds, and every `av_frame_clone` of a
key picture. -/
def memory_ok (steps : List DrainStep) : Bool :=
  (picture_steps steps).all (fun s => s.alloc_ok && (!s.frame.is_key || s.clone_ok))
    && match stop_step steps with
       | none => true
       | some s => s.alloc_ok

/-- The picture a call delivers: that of a successful `avcodec_receive_frame`. -/
def Call.picture : Call → Option AVFrame
  | .avcodec_receive_frame _ _ pic => pic
  | _ => none

/-- The pictures received from the decoder along a trace, in order. -/
def received (calls : List Call) : List AVFrame := calls.filterMap Call.picture

/-- An `avcodec_receive_frame` call. -/
def Call.is_receive : Call → Bool
  | .avcodec_receive_frame _ _ _ => true
  | _ => false

/-- The number of `avcodec_receive_frame` calls of a trace. -/
def receive_count (calls : List Call) : Nat := calls.countP Call.is_receive

/-- A call that reads a unit or feeds the decoder. -/
def Call.is_work : Call → Bool
  | .av_read_frame _ _ _ => true
  | .avcodec_send_packet _ _ _ => true
  | _ => false

/-- A call that signals a failure. -/
def Call.is_failure : Call → Bool
  | .av_read_frame _ ret _ => decide (ret ≠ 0 ∧ ret ≠ AVERROR_EOF)
  | .avcodec_send_packet _ _ ret => decide (ret < 0)
  | .avcodec_receive_frame _ ret _ =>
    decide (ret < 0 ∧ ret ≠ AVERROR_EAGAIN ∧ ret ≠ AVERROR_EOF)
  | .av_frame_alloc none => true
  | .av_frame_clone _ none => true
  | _ => false

/-- A feed that succeeds the way the decoder sees it: the send is accepted and
the receive that ends the loop signals needs-more-input or end-of-stream. -/
def feed_clean (resp : FeedResp) : Bool := decide (0 ≤ resp.send_ret) && receives_ok resp.steps

/-- A feed that succeeds altogether: as `feed_clean`, and no allocation fails. -/
def feed_ok (resp : FeedResp) : Bool := feed_clean resp && memory_ok resp.steps

/-- The units the container delivers: the packets of the reads before the first
read that does not return 0. -/
def units_read (reads : List ReadResp) : List AVPacket :=
  (reads.takeWhile (fun r => decide (r.ret = 0))).map (·.packet)

/-- The return code of the read that ends the loop; `AVERROR_EOF` once the
answers are used up. -/
def end_code (reads : List ReadResp) : Int :=
  match (reads.dropWhile (fun r => decide (r.ret = 0))).head? with
  | none => AVERROR_EOF
  | some r => r.ret

/-- The units of the selected stream, in read order. -/
def selected (video_stream_index : Int) (reads : List ReadResp) : List AVPacket :=
  (units_read reads).filter (fun p => decide (p.stream_index = video_stream_index))

/-- The packets fed so far at each feed, when `sel` is fed after `fed`. -/
def feeds : List AVPacket → List AVPacket → List (List AVPacket)
  | _, [] => []
  | fed, p :: sel => (fed ++ [p]) :: feeds (fed ++ [p]) sel

/-- The pictures the decoder makes available over a whole run, in order. -/
def pictures (decoder : List AVPacket → FeedResp) (fed sel : List AVPacket) : List AVFrame :=
  (feeds fed sel).flatMap (fun h => offered (decoder h).steps)

/-- The packet of a successful read. -/
def Call.unit_read : Call → Option AVPacket
  | .av_read_frame _ _ pkt => pkt
  | _ => none

/-- The packet of a feed. -/
def Call.unit_sent : Call → Option AVPacket
  | .avcodec_send_packet _ pkt _ => some pkt
  | _ => none

/-- A call on the container side of the loop: a read or the release of its packet. -/
def Call.is_container : Call → Bool
  | .av_read_frame _ _ _ => true
  | .av_packet_unref _ => true
  | _ => false

/-- The units the reads of a trace delivered, in order. -/
def units_of_reads (calls : List Call) : List AVPacket := calls.filterMap Call.unit_read

/-- The units a trace fed to the decoder, in order. -/
def units_sent (calls : List Call) : List AVPacket := calls.filterMap Call.unit_sent

/-- After a call that signals a failure, no unit is read or fed. -/
def quiet_after_failure (calls : List Call) : Prop :=
  ∀ pre c post, calls = pre ++ c :: post → c.is_failure = true → ∀ d ∈ post, d.is_work = false

/-- A read that answers end-of-stream. -/
def Call.is_end_of_stream : Call → Bool
  | .av_read_frame _ ret _ => decide (ret = AVERROR_EOF)
  | _ => false

/-- A read that signals a failure other than end-of-stream. -/
def Call.is_read_failure : Call → Bool
  | .av_read_frame _ ret _ => decide (ret ≠ 0 ∧ ret ≠ AVERROR_EOF)
  | _ => false

/-- A feed that signals a failure, or a receive that signals one other than
needs-more-input and end-of-stream. -/
def Call.is_decode_failure : Call → Bool
  | .avcodec_send_packet _ _ ret => decide (ret < 0)
  | .avcodec_receive_frame _ ret _ =>
    decide (ret < 0 ∧ ret ≠ AVERROR_EAGAIN ∧ ret ≠ AVERROR_EOF)
  | _ => false

/-- The result `extract_iframes` must give, read off the answers of the library. -/
def expected (decoder : List AVPacket → FeedResp) (video_stream_index : Int)
    (reads : List ReadResp) (fed : List AVPacket) (i_frames : List AVFrame) :
    Outcome (List AVFrame) :=
  if (feeds fed (selected video_stream_index reads)).all (fun h => feed_ok (decoder h)) then
    if end_code reads = AVERROR_EOF then
      .ok (i_frames
        ++ (pictures decoder fed (selected video_stream_index reads)).filter AVFrame.is_key)
    else .throw "Error reading frames from input file"
  else .throw "Error processing packet"

/-- The calls of a trace on the decoder side: all but reads and packet releases. -/
def decoder_side (calls : List Call) : List Call := calls.filter (fun c => !c.is_container)

/-- The characters of one output line as `main` writes it. -/
def printed_line (frame : AVFrame) : String :=
  "I-frame found at timestamp: " ++ toString frame.pts ++ "\n"

/-- The characters of one output line as the interface description has it: the
word `unknown` stands for a picture without a timestamp. -/
def described_line (frame : AVFrame) : String :=
  "I-frame found at timestamp: "
    ++ (if frame.pts = AV_NOPTS_VALUE then "unknown" else toString frame.pts) ++ "\n"

/-- The lines of a text, put one after the other. -/
def text_of (lines : List String) : String := lines.foldr (· ++ ·) ""

/-! ## Concrete inputs -/

/-- A library that finds at `clip.mp4` an audio stream 0 and a video stream 1 with
five packets, and nothing at any other path.  The decoder buffers the first video
packet, delivers three pictures after the second and two after the third. -/
def sample_lib : Lib where
  source := fun path =>
    if path = "clip.mp4" then
      ⟨0, 0, [⟨ AVMediaType.AUDIO, 86018⟩, ⟨.VIDEO, 27⟩],
        [⟨0, ⟨0, 10⟩⟩, ⟨0, ⟨1, 11⟩⟩, ⟨0, ⟨1, 12⟩⟩, ⟨0, ⟨0, 13⟩⟩, ⟨0, ⟨1, 14⟩⟩]⟩
    else ⟨-2, 0, [], []⟩
  find_decoder := fun codec_id => if codec_id = 27 then some 27 else none
  alloc_context_ok := true
  parameters_ret := 0
  open2_ret := 0
  frame_alloc_ok := true
  decoder := fun fed =>
    match fed.length with
    | 1 => ⟨0, []⟩
    | 2 =>
      ⟨0, [⟨true, 0, ⟨0, .I⟩, true⟩, ⟨true, 0, ⟨3003, .P⟩, true⟩, ⟨true, 0, ⟨1001, .B⟩, true⟩,
        ⟨true, -11, ⟨0, .NONE⟩, true⟩]⟩
    | _ => ⟨0, [⟨true, 0, ⟨2002, .B⟩, true⟩, ⟨true, 0, ⟨6006, .I⟩, true⟩]⟩
  next := 0

/-- The session the constructor builds from `clip.mp4` with `sample_lib`. -/
def sample_video : Video := ⟨some ⟨0, "clip.mp4"⟩, some 27, some 1, some 2, 1⟩

/-- As `sample_lib`, read after the session is built. -/
def sample_lib_built : Lib := { sample_lib with next := 3 }

/-- As `sample_lib`, but `av_frame_alloc` fails in the constructor. -/
def no_frame_lib : Lib := { sample_lib with frame_alloc_ok := false }

/-- As `sample_lib`, with a data packet of stream 2 put in after the second packet. -/
def sample_lib_more : Lib :=
  { sample_lib_built with
    source := fun path =>
      if path = "clip.mp4" then
        ⟨0, 0, [⟨ AVMediaType.AUDIO, 86018⟩, ⟨.VIDEO, 27⟩],
          [⟨0, ⟨0, 10⟩⟩, ⟨0, ⟨1, 11⟩⟩, ⟨0, ⟨2, 99⟩⟩, ⟨0, ⟨1, 12⟩⟩, ⟨0, ⟨0, 13⟩⟩, ⟨0, ⟨1, 14⟩⟩]⟩
      else ⟨-2, 0, [], []⟩ }

/-- A library whose file `clip.mp4` holds one video packet; the decoder delivers
one key picture that has no timestamp. -/
def nopts_lib : Lib :=
  { sample_lib with
    source := fun path =>
      if path = "clip.mp4" then ⟨0, 0, [⟨.VIDEO, 27⟩], [⟨0, ⟨0, 1⟩⟩]⟩ else ⟨-2, 0, [], []⟩
    decoder := fun _ => ⟨0, [⟨true, 0, ⟨AV_NOPTS_VALUE, .I⟩, true⟩]⟩ }

/-- The session the constructor builds from `clip.mp4` with `nopts_lib`. -/
def nopts_video : Video := ⟨some ⟨0, "clip.mp4"⟩, some 27, some 1, some 2, 0⟩

/-- As `sample_lib_built`, but after the second video packet the decoder delivers
one key picture and then signals invalid data (`AVERROR_INVALIDDATA`). -/
def decode_fails_lib : Lib :=
  { sample_lib_built with
    decoder := fun fed =>
      match fed.length with
      | 1 => ⟨0, []⟩
      | _ => ⟨0, [⟨true, 0, ⟨0, .I⟩, true⟩, ⟨true, -1094995529, ⟨0, .NONE⟩, true⟩]⟩ }

/-! ## Lemmas -/

/-- What a constructed session holds. -/
theorem ctor_ok_fields (lib : Lib) (filename : String) (v : Video)
    (h : (Video_ctor lib filename).result = .ok v) :
    v.format_context = some ⟨lib.next, filename⟩ ∧ v.codec_context = some (lib.next + 1)
      ∧ v.frame = some (lib.next + 2) ∧ (Video_ctor lib filename).next = lib.next + 3 := by
  revert h
  unfold Video_ctor
  dsimp only
  repeat' split
  all_goals intro h
  all_goals cases h
  all_goals simp_all

theorem copy_ctor_eq (lib : Lib) (other : Video) (fc : AVFormatContext)
    (h : other.format_context = some fc) :
    Video_copy_ctor lib other = Video_ctor lib fc.url := by
  unfold Video_copy_ctor Video_ctor
  rw [h]

theorem find_video_stream_none (streams : List AVStream) (i : Nat) (d : Int)
    (h : ∀ s ∈ streams, s.codec_type ≠ AVMediaType.VIDEO) :
    find_video_stream streams i d = d := by
  induction streams generalizing i with
  | nil => rfl
  | cons s rest ih =>
    have hs : s.codec_type ≠ AVMediaType.VIDEO := h s (List.mem_cons_self _ _)
    simp only [find_video_stream, hs, if_false]
    exact ih (i + 1) (fun t ht => h t (List.mem_cons_of_mem _ ht))

theorem find_video_stream_first (streams : List AVStream) (i k : Nat) (d : Int) (s : AVStream)
    (hk : streams.get? k = some s) (hs : s.codec_type = AVMediaType.VIDEO)
    (hmin : ∀ j, j < k → ∀ t, streams.get? j = some t → t.codec_type ≠ AVMediaType.VIDEO) :
    find_video_stream streams i d = static_cast_int (i + k) := by
  induction streams generalizing i k with
  | nil => simp at hk
  | cons a rest ih =>
    cases k with
    | zero =>
      simp only [List.get?_cons_zero, Option.some.injEq] at hk
      subst hk
      simp [find_video_stream, hs]
    | succ k =>
      have ha : a.codec_type ≠ AVMediaType.VIDEO := hmin 0 (Nat.succ_pos k) a rfl
      simp only [find_video_stream, ha, if_false]
      rw [ih (i + 1) k hk (fun j hj t ht => hmin (j + 1) (Nat.succ_lt_succ hj) t ht)]
      congr 1
      omega

theorem static_cast_int_small (i : Nat) (h : i < 2 ^ 31) : static_cast_int i = (i : Int) := by
  unfold static_cast_int
  have h1 : i % 2 ^ 32 = i := Nat.mod_eq_of_lt (by omega)
  rw [h1, if_pos h]

/-- A list either has no video stream or a first one. -/
theorem first_video_cases (streams : List AVStream) :
    (∀ s ∈ streams, s.codec_type ≠ AVMediaType.VIDEO) ∨
    ∃ k s, streams.get? k = some s ∧ s.codec_type = AVMediaType.VIDEO ∧
      ∀ j, j < k → ∀ t, streams.get? j = some t → t.codec_type ≠ AVMediaType.VIDEO := by
  induction streams with
  | nil => left; simp
  | cons a rest ih =>
    by_cases ha : a.codec_type = AVMediaType.VIDEO
    · right
      exact ⟨0, a, rfl, ha, fun j hj => absurd hj (Nat.not_lt_zero j)⟩
    · rcases ih with h | ⟨k, s, hk, hs, hmin⟩
      · left
        intro s hs
        rcases List.mem_cons.mp hs with rfl | h'
        · exact ha
        · exact h s h'
      · right
        refine ⟨k + 1, s, hk, hs, fun j hj t ht => ?_⟩
        cases j with
        | zero =>
          simp only [List.get?_cons_zero, Option.some.injEq] at ht
          subst ht
          exact ha
        | succ j => exact hmin j (Nat.lt_of_succ_lt_succ hj) t ht

theorem stream_at_natCast (streams : List AVStream) (k : Nat) :
    stream_at streams (k : Int) = streams.get? k := by
  unfold stream_at
  have : ¬ ((k : Int) < 0) := by omega
  simp [this]

theorem picture_steps_cons (s : DrainStep) (rest : List DrainStep) :
    picture_steps (s :: rest) = if 0 ≤ s.ret then s :: picture_steps rest else [] := by
  by_cases h : 0 ≤ s.ret <;> simp [picture_steps, List.takeWhile, DrainStep.is_picture, h]

theorem stop_step_cons (s : DrainStep) (rest : List DrainStep) :
    stop_step (s :: rest) = if 0 ≤ s.ret then stop_step rest else some s := by
  by_cases h : 0 ≤ s.ret <;> simp [stop_step, List.dropWhile, DrainStep.is_picture, h]

/-- One iteration of the receive loop, by what the iteration meets. -/
theorem receive_loop_cons (cc : Handle) (s : DrainStep) (rest : List DrainStep) (ret : Int)
    (i_frames : List AVFrame) (next : Handle) (hret : 0 ≤ ret) :
    (s.alloc_ok = false ∧
      receive_loop cc (s :: rest) ret i_frames next
        = ⟨AVERROR_ENOMEM, i_frames, next, [.av_frame_alloc none]⟩) ∨
    (s.alloc_ok = true ∧ (s.ret = AVERROR_EAGAIN ∨ s.ret = AVERROR_EOF) ∧
      receive_loop cc (s :: rest) ret i_frames next
        = ⟨0, i_frames, next + 1,
            [.av_frame_alloc (some next), .avcodec_receive_frame cc s.ret none,
              .av_frame_free (some next)]⟩) ∨
    (s.alloc_ok = true ∧ s.ret < 0 ∧ s.ret ≠ AVERROR_EAGAIN ∧ s.ret ≠ AVERROR_EOF ∧
      receive_loop cc (s :: rest) ret i_frames next
        = ⟨s.ret, i_frames, next + 1,
            [.av_frame_alloc (some next), .avcodec_receive_frame cc s.ret none,
              .av_frame_free (some next)]⟩) ∨
    (s.alloc_ok = true ∧ 0 ≤ s.ret ∧ s.frame.is_key = true ∧ s.clone_ok = false ∧
      receive_loop cc (s :: rest) ret i_frames next
        = ⟨AVERROR_ENOMEM, i_frames, next + 1,
            [.av_frame_alloc (some next), .avcodec_receive_frame cc s.ret (some s.frame),
              .av_frame_clone s.frame none, .av_frame_free (some next)]⟩) ∨
    (s.alloc_ok = true ∧ 0 ≤ s.ret ∧ s.frame.is_key = true ∧ s.clone_ok = true ∧
      receive_loop cc (s :: rest) ret i_frames next
        = ⟨(receive_loop cc rest 0 (i_frames ++ [s.frame]) (next + 2)).ret,
            (receive_loop cc rest 0 (i_frames ++ [s.frame]) (next + 2)).i_frames,
            (receive_loop cc rest 0 (i_frames ++ [s.frame]) (next + 2)).next,
            [.av_frame_alloc (some next), .avcodec_receive_frame cc s.ret (some s.frame),
              .av_frame_clone s.frame (some (next + 1)), .av_frame_free (some next)]
              ++ (receive_loop cc rest 0 (i_frames ++ [s.frame]) (next + 2)).calls⟩) ∨
    (s.alloc_ok = true ∧ 0 ≤ s.ret ∧ s.frame.is_key = false ∧
      receive_loop cc (s :: rest) ret i_frames next
        = ⟨(receive_loop cc rest s.ret i_frames (next + 1)).ret,
            (receive_loop cc rest s.ret i_frames (next + 1)).i_frames,
            (receive_loop cc rest s.ret i_frames (next + 1)).next,
            [.av_frame_alloc (some next), .avcodec_receive_frame cc s.ret (some s.frame),
              .av_frame_free (some next)]
              ++ (receive_loop cc rest s.ret i_frames (next + 1)).calls⟩) := by
  have hnot : ¬ ret < 0 := by omega
  rw [receive_loop.eq_2]
  simp only [hnot, if_false]
  by_cases halloc : s.alloc_ok = true
  · by_cases hstop : s.ret = AVERROR_EAGAIN ∨ s.ret = AVERROR_EOF
    · have hneg : ¬ 0 ≤ s.ret := by
        rcases hstop with h | h <;> rw [h] <;> decide
      right; left
      simp [halloc, hstop, hneg]
    · by_cases hneg : s.ret < 0
      · have hneg2 : ¬ 0 ≤ s.ret := by omega
        right; right; left
        simp only [not_or] at hstop
        simp [halloc, hstop, hneg, hneg2]
      · have hpos : 0 ≤ s.ret := by omega
        by_cases hkey : s.frame.pict_type = AVPictureType.I
        · by_cases hclone : s.clone_ok = true
          · right; right; right; right; left
            simp [halloc, hstop, hneg, hpos, hkey, hclone, process_iframe, AVFrame.is_key]
          · right; right; right; left
            simp [halloc, hstop, hneg, hpos, hkey, hclone, process_iframe, AVFrame.is_key,
              AVERROR_ENOMEM]
        · right; right; right; right; right
          simp [halloc, hstop, hneg, hpos, hkey, AVFrame.is_key]
  · left
    simp [halloc]

theorem receive_loop_nil (cc : Handle) (ret : Int) (i_frames : List AVFrame) (next : Handle)
    (hret : 0 ≤ ret) :
    receive_loop cc [] ret i_frames next
      = ⟨0, i_frames, next + 1,
          [.av_frame_alloc (some next), .avcodec_receive_frame cc AVERROR_EAGAIN none,
            .av_frame_free (some next)]⟩ := by
  have hnot : ¬ ret < 0 := by omega
  simp [receive_loop, hnot]

theorem receive_loop_spec (cc : Handle) (steps : List DrainStep) (ret : Int)
    (i_frames : List AVFrame) (next : Handle) (hret : 0 ≤ ret) :
    ((receive_loop cc steps ret i_frames next).ret = 0 ∨
        (receive_loop cc steps ret i_frames next).ret < 0) ∧
    ((receive_loop cc steps ret i_frames next).ret = 0 ↔
        (receives_ok steps = true ∧ memory_ok steps = true)) ∧
    ((receive_loop cc steps ret i_frames next).ret = 0 →
      (receive_loop cc steps ret i_frames next).i_frames
          = i_frames ++ (offered steps).filter AVFrame.is_key ∧
      received (receive_loop cc steps ret i_frames next).calls = offered steps ∧
      receive_count (receive_loop cc steps ret i_frames next).calls
          = (offered steps).length + 1 ∧
      ∀ c ∈ (receive_loop cc steps ret i_frames next).calls, c.is_failure = false) ∧
    (∀ c ∈ (receive_loop cc steps ret i_frames next).calls, c.is_work = false) := by
  induction steps generalizing ret i_frames next with
  | nil =>
    rw [receive_loop_nil cc ret i_frames next hret]
    simp [receives_ok, memory_ok, stop_step, picture_steps, offered, received,
      receive_count, Call.is_failure, Call.is_work, Call.picture, Call.is_receive,
      AVERROR_EAGAIN, AVERROR_EOF]
  | cons s rest ih =>
    rcases receive_loop_cons cc s rest ret i_frames next hret with
      ⟨halloc, heq⟩ | ⟨halloc, hstop, heq⟩ | ⟨halloc, hneg, h1, h2, heq⟩ |
      ⟨halloc, hpos, hkey, hclone, heq⟩ | ⟨halloc, hpos, hkey, hclone, heq⟩ |
      ⟨halloc, hpos, hkey, heq⟩
    · rw [heq]
      have hcases : ¬ 0 ≤ s.ret ∨ 0 ≤ s.ret := by omega
      rcases hcases with h | h <;>
        simp [receives_ok, memory_ok, stop_step_cons, picture_steps_cons, h, halloc,
          AVERROR_ENOMEM, Call.is_work]
    · rw [heq]
      have hneg : ¬ 0 ≤ s.ret := by
        rcases hstop with h | h <;> rw [h] <;> decide
      simp [receives_ok, memory_ok, stop_step_cons, picture_steps_cons, hneg, halloc, hstop,
        offered, received, receive_count, Call.is_failure, Call.is_work, Call.picture,
        Call.is_receive]
      omega
    · rw [heq]
      have hneg2 : ¬ 0 ≤ s.ret := by omega
      have hne : s.ret ≠ 0 := by omega
      simp [receives_ok, memory_ok, stop_step_cons, picture_steps_cons, hneg2, halloc, h1, h2,
        hneg, hne, Call.is_work]
    · rw [heq]
      simp [receives_ok, memory_ok, stop_step_cons, picture_steps_cons, hpos, halloc, hkey,
        hclone, AVERROR_ENOMEM, Call.is_work]
    · rw [heq]
      obtain ⟨ih1, ih2, ih3, ih4⟩ := ih 0 (i_frames ++ [s.frame]) (next + 2) (le_refl 0)
      refine ⟨ih1, ?_, ?_, ?_⟩
      · rw [ih2]
        simp [receives_ok, memory_ok, stop_step_cons, picture_steps_cons, hpos, halloc, hkey,
          hclone]
      · intro h0
        obtain ⟨a, b, c, d⟩ := ih3 h0
        simp only [] at h0 ⊢
        refine ⟨?_, ?_, ?_, ?_⟩
        · rw [a]
          simp [offered, picture_steps_cons, hpos, hkey]
        · simp [received, offered, picture_steps_cons, hpos, Call.picture] at b ⊢
          exact b
        · simp [receive_count, offered, picture_steps_cons, hpos, Call.is_receive] at c ⊢
          exact c
        · intro x hx
          simp only [List.mem_append, List.mem_cons, List.mem_singleton, List.not_mem_nil,
            or_false] at hx
          rcases hx with (rfl | rfl | rfl | rfl) | hx
          · rfl
          · simp [Call.is_failure]; omega
          · rfl
          · rfl
          · exact d x hx
      · intro x hx
        simp only [List.mem_append, List.mem_cons, List.mem_singleton, List.not_mem_nil,
          or_false] at hx
        rcases hx with (rfl | rfl | rfl | rfl) | hx
        · rfl
        · rfl
        · rfl
        · rfl
        · exact ih4 x hx
    · rw [heq]
      obtain ⟨ih1, ih2, ih3, ih4⟩ := ih s.ret i_frames (next + 1) hpos
      refine ⟨ih1, ?_, ?_, ?_⟩
      · rw [ih2]
        simp [receives_ok, memory_ok, stop_step_cons, picture_steps_cons, hpos, halloc, hkey]
      · intro h0
        obtain ⟨a, b, c, d⟩ := ih3 h0
        simp only [] at h0 ⊢
        refine ⟨?_, ?_, ?_, ?_⟩
        · rw [a]
          simp [offered, picture_steps_cons, hpos, hkey]
        · simp [received, offered, picture_steps_cons, hpos, Call.picture] at b ⊢
          exact b
        · simp [receive_count, offered, picture_steps_cons, hpos, Call.is_receive] at c ⊢
          exact c
        · intro x hx
          simp only [List.mem_append, List.mem_cons, List.mem_singleton, List.not_mem_nil,
            or_false] at hx
          rcases hx with (rfl | rfl | rfl) | hx
          · rfl
          · simp [Call.is_failure]; omega
          · rfl
          · exact d x hx
      · intro x hx
        simp only [List.mem_append, List.mem_cons, List.mem_singleton, List.not_mem_nil,
          or_false] at hx
        rcases hx with (rfl | rfl | rfl) | hx
        · rfl
        · rfl
        · rfl
        · exact ih4 x hx

theorem process_packet_spec (cc : Handle) (resp : FeedResp) (packet : AVPacket)
    (i_frames : List AVFrame) (next : Handle) :
    ((process_packet cc resp packet i_frames next).ret = 0 ∨
        (process_packet cc resp packet i_frames next).ret < 0) ∧
    ((process_packet cc resp packet i_frames next).ret = 0 ↔ feed_ok resp = true) ∧
    ((process_packet cc resp packet i_frames next).ret = 0 →
      (process_packet cc resp packet i_frames next).i_frames
          = i_frames ++ (offered resp.steps).filter AVFrame.is_key ∧
      received (process_packet cc resp packet i_frames next).calls = offered resp.steps ∧
      receive_count (process_packet cc resp packet i_frames next).calls
          = (offered resp.steps).length + 1 ∧
      ∀ c ∈ (process_packet cc resp packet i_frames next).calls, c.is_failure = false) ∧
    (∃ tail, (process_packet cc resp packet i_frames next).calls
        = .avcodec_send_packet cc packet resp.send_ret :: tail ∧
      ∀ c ∈ tail, c.is_work = false) := by
  unfold process_packet
  by_cases hsend : resp.send_ret < 0
  · have hne : resp.send_ret ≠ 0 := by omega
    have hnot : ¬ 0 ≤ resp.send_ret := by omega
    simp [hsend, hne, hnot, feed_ok, feed_clean]
  · have hret : 0 ≤ resp.send_ret := by omega
    obtain ⟨h1, h2, h3, h4⟩ := receive_loop_spec cc resp.steps resp.send_ret i_frames next hret
    simp only [hsend, if_false]
    refine ⟨h1, ?_, ?_, ⟨_, rfl, h4⟩⟩
    · rw [h2]
      simp [feed_ok, feed_clean, hret]
    · intro h0
      obtain ⟨a, b, c, d⟩ := h3 h0
      refine ⟨a, ?_, ?_, ?_⟩
      · simpa [received, Call.picture] using b
      · simpa [receive_count, Call.is_receive] using c
      · intro x hx
        rcases List.mem_cons.mp hx with rfl | hx
        · simp [Call.is_failure, hret]
        · exact d x hx

theorem selected_nil (vsi : Int) : selected vsi [] = [] := rfl

theorem end_code_nil : end_code [] = AVERROR_EOF := rfl

theorem selected_cons (vsi : Int) (r : ReadResp) (rest : List ReadResp) :
    selected vsi (r :: rest) =
      if r.ret = 0 then
        if r.packet.stream_index = vsi then r.packet :: selected vsi rest else selected vsi rest
      else [] := by
  by_cases h : r.ret = 0 <;> by_cases h2 : r.packet.stream_index = vsi <;>
    simp [selected, units_read, List.takeWhile, h, h2]

theorem end_code_cons (r : ReadResp) (rest : List ReadResp) :
    end_code (r :: rest) = if r.ret = 0 then end_code rest else r.ret := by
  by_cases h : r.ret = 0 <;> simp [end_code, List.dropWhile, h]

theorem read_loop_result (decoder : List AVPacket → FeedResp) (fc cc : Handle) (vsi : Int)
    (reads : List ReadResp) (fed : List AVPacket) (i_frames : List AVFrame) (next : Handle) :
    (read_loop decoder fc cc vsi reads fed i_frames next).result
      = expected decoder vsi reads fed i_frames := by
  induction reads generalizing fed i_frames next with
  | nil => simp [read_loop, expected, selected_nil, end_code_nil, feeds, pictures]
  | cons r rest ih =>
    rw [read_loop.eq_2]
    unfold expected
    rw [selected_cons, end_code_cons]
    by_cases h0 : r.ret = 0
    · by_cases hsel : r.packet.stream_index = vsi
      · obtain ⟨p1, p2, p3, -⟩ :=
          process_packet_spec cc (decoder (fed ++ [r.packet])) r.packet i_frames next
        by_cases hp : (process_packet cc (decoder (fed ++ [r.packet])) r.packet i_frames next).ret < 0
        · have hne : ¬ (process_packet cc (decoder (fed ++ [r.packet])) r.packet i_frames
              next).ret = 0 := by omega
          have hbad : feed_ok (decoder (fed ++ [r.packet])) = false := by
            rw [p2] at hne
            simpa using hne
          simp [h0, hsel, hp, feeds, hbad]
        · have hz : (process_packet cc (decoder (fed ++ [r.packet])) r.packet i_frames
              next).ret = 0 := by omega
          have hgood : feed_ok (decoder (fed ++ [r.packet])) = true := p2.mp hz
          obtain ⟨a, -⟩ := p3 hz
          simp only [h0, hsel, hp, if_true, if_false, feeds, List.all_cons, hgood, Bool.true_and]
          rw [ih, a]
          unfold expected
          simp [pictures, feeds, List.flatMap_cons, List.filter_append, List.append_assoc]
      · simp only [h0, hsel, if_true, if_false]
        rw [ih]
        rfl
    · by_cases hE : r.ret = AVERROR_EOF
      · have hz : ¬ AVERROR_EOF = 0 := by decide
        simp [hE, hz, feeds, pictures]
      · simp [h0, hE, feeds]

/-- One iteration of the read loop, by what the iteration meets. -/
theorem read_loop_cons (decoder : List AVPacket → FeedResp) (fc cc : Handle) (vsi : Int)
    (r : ReadResp) (rest : List ReadResp) (fed : List AVPacket) (i_frames : List AVFrame)
    (next : Handle) :
    (r.ret = 0 ∧ r.packet.stream_index = vsi ∧
      (process_packet cc (decoder (fed ++ [r.packet])) r.packet i_frames next).ret < 0 ∧
      read_loop decoder fc cc vsi (r :: rest) fed i_frames next
        = ⟨.throw "Error processing packet",
            .av_read_frame fc 0 (some r.packet) ::
              ((process_packet cc (decoder (fed ++ [r.packet])) r.packet i_frames next).calls
                ++ [.av_packet_unref r.packet]),
            (process_packet cc (decoder (fed ++ [r.packet])) r.packet i_frames next).next⟩) ∨
    (r.ret = 0 ∧ r.packet.stream_index = vsi ∧
      (process_packet cc (decoder (fed ++ [r.packet])) r.packet i_frames next).ret = 0 ∧
      read_loop decoder fc cc vsi (r :: rest) fed i_frames next
        = ⟨(read_loop decoder fc cc vsi rest (fed ++ [r.packet])
              (process_packet cc (decoder (fed ++ [r.packet])) r.packet i_frames next).i_frames
              (process_packet cc (decoder (fed ++ [r.packet])) r.packet i_frames next).next).result,
            .av_read_frame fc 0 (some r.packet) ::
              ((process_packet cc (decoder (fed ++ [r.packet])) r.packet i_frames next).calls
                ++ .av_packet_unref r.packet ::
                (read_loop decoder fc cc vsi rest (fed ++ [r.packet])
                  (process_packet cc (decoder (fed ++ [r.packet])) r.packet i_frames next).i_frames
                  (process_packet cc (decoder (fed ++ [r.packet])) r.packet i_frames
                    next).next).calls),
            (read_loop decoder fc cc vsi rest (fed ++ [r.packet])
              (process_packet cc (decoder (fed ++ [r.packet])) r.packet i_frames next).i_frames
              (process_packet cc (decoder (fed ++ [r.packet])) r.packet i_frames next).next).next⟩) ∨
    (r.ret = 0 ∧ r.packet.stream_index ≠ vsi ∧
      read_loop decoder fc cc vsi (r :: rest) fed i_frames next
        = ⟨(read_loop decoder fc cc vsi rest fed i_frames next).result,
            .av_read_frame fc 0 (some r.packet) :: .av_packet_unref r.packet ::
              (read_loop decoder fc cc vsi rest fed i_frames next).calls,
            (read_loop decoder fc cc vsi rest fed i_frames next).next⟩) ∨
    (r.ret ≠ 0 ∧ r.ret ≠ AVERROR_EOF ∧
      read_loop decoder fc cc vsi (r :: rest) fed i_frames next
        = ⟨.throw "Error reading frames from input file", [.av_read_frame fc r.ret none], next⟩) ∨
    (r.ret = AVERROR_EOF ∧
      read_loop decoder fc cc vsi (r :: rest) fed i_frames next
        = ⟨.ok i_frames, [.av_read_frame fc r.ret none], next⟩) := by
  rw [read_loop.eq_2]
  by_cases h0 : r.ret = 0
  · by_cases hsel : r.packet.stream_index = vsi
    · obtain ⟨p1, -⟩ :=
        process_packet_spec cc (decoder (fed ++ [r.packet])) r.packet i_frames next
      by_cases hp : (process_packet cc (decoder (fed ++ [r.packet])) r.packet i_frames next).ret < 0
      · left
        simp [h0, hsel, hp]
      · have hz : (process_packet cc (decoder (fed ++ [r.packet])) r.packet i_frames
            next).ret = 0 := by omega
        right; left
        simp [h0, hsel, hz]
    · right; right; left
      simp [h0, hsel]
  · by_cases hE : r.ret = AVERROR_EOF
    · have hz : ¬ AVERROR_EOF = 0 := by decide
      right; right; right; right
      simp [hE, hz]
    · right; right; right; left
      simp [h0, hE]

theorem read_loop_received (decoder : List AVPacket → FeedResp) (fc cc : Handle) (vsi : Int)
    (reads : List ReadResp) (fed : List AVPacket) (i_frames : List AVFrame) (next : Handle)
    (fs : List AVFrame)
    (hok : (read_loop decoder fc cc vsi reads fed i_frames next).result = .ok fs) :
    received (read_loop decoder fc cc vsi reads fed i_frames next).calls
      = pictures decoder fed (selected vsi reads) := by
  induction reads generalizing fed i_frames next with
  | nil => simp [read_loop, received, Call.picture, selected_nil, pictures, feeds]
  | cons r rest ih =>
    rw [selected_cons]
    rcases read_loop_cons decoder fc cc vsi r rest fed i_frames next with
      ⟨h0, hsel, hp, heq⟩ | ⟨h0, hsel, hp, heq⟩ | ⟨h0, hsel, heq⟩ | ⟨h0, hE, heq⟩ | ⟨hE, heq⟩
    · rw [heq] at hok
      cases hok
    · rw [heq] at hok ⊢
      obtain ⟨-, -, p3, -⟩ :=
        process_packet_spec cc (decoder (fed ++ [r.packet])) r.packet i_frames next
      obtain ⟨-, b, -⟩ := p3 hp
      have := ih _ _ _ hok
      simp only [received, List.filterMap_cons, List.filterMap_append, Call.picture] at this b ⊢
      rw [this, b]
      simp [h0, hsel, pictures, feeds]
    · rw [heq] at hok ⊢
      have := ih _ _ _ hok
      simp only [received, List.filterMap_cons, Call.picture] at this ⊢
      rw [this]
      simp [h0, hsel]
    · rw [heq] at hok
      cases hok
    · have hz : ¬ r.ret = 0 := by rw [hE]; decide
      rw [heq]
      simp [hz, received, Call.picture, pictures, feeds]

theorem not_work_fields (c : Call) (h : c.is_work = false) :
    c.unit_read = none ∧ c.unit_sent = none := by
  cases c <;> simp_all [Call.is_work, Call.unit_read, Call.unit_sent]

theorem process_packet_units (cc : Handle) (resp : FeedResp) (packet : AVPacket)
    (i_frames : List AVFrame) (next : Handle) :
    units_of_reads (process_packet cc resp packet i_frames next).calls = [] ∧
    units_sent (process_packet cc resp packet i_frames next).calls = [packet] := by
  obtain ⟨-, -, -, tail, hcalls, htail⟩ := process_packet_spec cc resp packet i_frames next
  rw [hcalls]
  have h1 : tail.filterMap Call.unit_read = [] :=
    List.filterMap_eq_nil_iff.mpr (fun c hc => (not_work_fields c (htail c hc)).1)
  have h2 : tail.filterMap Call.unit_sent = [] :=
    List.filterMap_eq_nil_iff.mpr (fun c hc => (not_work_fields c (htail c hc)).2)
  simp [units_of_reads, units_sent, Call.unit_read, Call.unit_sent, h1, h2]

theorem read_loop_units (decoder : List AVPacket → FeedResp) (fc cc : Handle) (vsi : Int)
    (reads : List ReadResp) (fed : List AVPacket) (i_frames : List AVFrame) (next : Handle) :
    units_sent (read_loop decoder fc cc vsi reads fed i_frames next).calls
      = (units_of_reads (read_loop decoder fc cc vsi reads fed i_frames next).calls).filter
          (fun p => decide (p.stream_index = vsi)) := by
  induction reads generalizing fed i_frames next with
  | nil => simp [read_loop, units_sent, units_of_reads, Call.unit_read, Call.unit_sent]
  | cons r rest ih =>
    obtain ⟨u1, u2⟩ :=
      process_packet_units cc (decoder (fed ++ [r.packet])) r.packet i_frames next
    rcases read_loop_cons decoder fc cc vsi r rest fed i_frames next with
      ⟨h0, hsel, hp, heq⟩ | ⟨h0, hsel, hp, heq⟩ | ⟨h0, hsel, heq⟩ | ⟨h0, hE, heq⟩ | ⟨hE, heq⟩
    · rw [heq]
      simp only [units_sent, units_of_reads, List.filterMap_cons, List.filterMap_append,
        Call.unit_read, Call.unit_sent] at u1 u2 ⊢
      rw [u1, u2]
      simp [hsel]
    · rw [heq]
      have := ih (fed ++ [r.packet])
        (process_packet cc (decoder (fed ++ [r.packet])) r.packet i_frames next).i_frames
        (process_packet cc (decoder (fed ++ [r.packet])) r.packet i_frames next).next
      simp only [units_sent, units_of_reads, List.filterMap_cons, List.filterMap_append,
        Call.unit_read, Call.unit_sent] at u1 u2 this ⊢
      rw [u1, u2, this]
      simp [hsel]
    · rw [heq]
      have := ih fed i_frames next
      simp only [units_sent, units_of_reads, List.filterMap_cons, Call.unit_read,
        Call.unit_sent] at this ⊢
      rw [this]
      simp [hsel]
    · rw [heq]
      simp [units_sent, units_of_reads, Call.unit_read, Call.unit_sent]
    · rw [heq]
      simp [units_sent, units_of_reads, Call.unit_read, Call.unit_sent]

theorem quiet_cons_of_tail (c : Call) (l : List Call) (h : ∀ d ∈ l, d.is_work = false) :
    quiet_after_failure (c :: l) := by
  intro pre c' post heq _ d hd
  cases pre with
  | nil =>
    simp only [List.nil_append, List.cons.injEq] at heq
    exact h d (heq.2 ▸ hd)
  | cons a pre' =>
    simp only [List.cons_append, List.cons.injEq] at heq
    exact h d (heq.2 ▸ List.mem_append_right _ (List.mem_cons_of_mem _ hd))

theorem quiet_cons_of_ok (c : Call) (l : List Call) (hc : c.is_failure = false)
    (h : quiet_after_failure l) : quiet_after_failure (c :: l) := by
  intro pre c' post heq hfail d hd
  cases pre with
  | nil =>
    simp only [List.nil_append, List.cons.injEq] at heq
    rw [← heq.1, hc] at hfail
    cases hfail
  | cons a pre' =>
    simp only [List.cons_append, List.cons.injEq] at heq
    exact h pre' c' post heq.2 hfail d hd

theorem quiet_append_of_ok (a b : List Call) (ha : ∀ c ∈ a, c.is_failure = false)
    (h : quiet_after_failure b) : quiet_after_failure (a ++ b) := by
  induction a with
  | nil => exact h
  | cons c rest ih =>
    exact quiet_cons_of_ok c (rest ++ b) (ha c (List.mem_cons_self _ _))
      (ih (fun x hx => ha x (List.mem_cons_of_mem _ hx)))

theorem read_loop_quiet (decoder : List AVPacket → FeedResp) (fc cc : Handle) (vsi : Int)
    (reads : List ReadResp) (fed : List AVPacket) (i_frames : List AVFrame) (next : Handle) :
    quiet_after_failure (read_loop decoder fc cc vsi reads fed i_frames next).calls := by
  induction reads generalizing fed i_frames next with
  | nil =>
    simp only [read_loop]
    exact quiet_cons_of_tail _ [] (fun d hd => absurd hd (List.not_mem_nil d))
  | cons r rest ih =>
    obtain ⟨-, -, p3, tail, hcalls, htail⟩ :=
      process_packet_spec cc (decoder (fed ++ [r.packet])) r.packet i_frames next
    rcases read_loop_cons decoder fc cc vsi r rest fed i_frames next with
      ⟨h0, hsel, hp, heq⟩ | ⟨h0, hsel, hp, heq⟩ | ⟨h0, hsel, heq⟩ | ⟨h0, hE, heq⟩ | ⟨hE, heq⟩
    · rw [heq, hcalls]
      apply quiet_cons_of_ok _ _ (by simp [Call.is_failure])
      apply quiet_cons_of_tail
      intro d hd
      rcases List.mem_append.mp hd with hd | hd
      · exact htail d hd
      · rw [List.mem_singleton.mp hd]
        rfl
    · rw [heq]
      obtain ⟨-, -, -, d⟩ := p3 hp
      apply quiet_cons_of_ok _ _ (by simp [Call.is_failure])
      apply quiet_append_of_ok _ _ d
      exact quiet_cons_of_ok _ _ rfl (ih _ _ _)
    · rw [heq]
      apply quiet_cons_of_ok _ _ (by simp [Call.is_failure])
      exact quiet_cons_of_ok _ _ rfl (ih _ _ _)
    · rw [heq]
      exact quiet_cons_of_tail _ [] (fun d hd => absurd hd (List.not_mem_nil d))
    · rw [heq]
      exact quiet_cons_of_tail _ [] (fun d hd => absurd hd (List.not_mem_nil d))

theorem decoder_side_read (fc : Handle) (ret : Int) (pkt : Option AVPacket) (l : List Call) :
    decoder_side (.av_read_frame fc ret pkt :: l) = decoder_side l := by
  simp [decoder_side, List.filter_cons, Call.is_container]

theorem decoder_side_unref (pkt : AVPacket) (l : List Call) :
    decoder_side (.av_packet_unref pkt :: l) = decoder_side l := by
  simp [decoder_side, List.filter_cons, Call.is_container]

theorem decoder_side_append (a b : List Call) :
    decoder_side (a ++ b) = decoder_side a ++ decoder_side b := by
  simp [decoder_side]

theorem read_loop_insert (decoder : List AVPacket → FeedResp) (fc cc : Handle) (vsi : Int)
    (a b : List ReadResp) (p : AVPacket) (hp : p.stream_index ≠ vsi)
    (fed : List AVPacket) (i_frames : List AVFrame) (next : Handle) :
    (read_loop decoder fc cc vsi (a ++ ⟨0, p⟩ :: b) fed i_frames next).result
        = (read_loop decoder fc cc vsi (a ++ b) fed i_frames next).result ∧
    decoder_side (read_loop decoder fc cc vsi (a ++ ⟨0, p⟩ :: b) fed i_frames next).calls
      = decoder_side (read_loop decoder fc cc vsi (a ++ b) fed i_frames next).calls := by
  induction a generalizing fed i_frames next with
  | nil =>
    rcases read_loop_cons decoder fc cc vsi ⟨0, p⟩ b fed i_frames next with
      ⟨_, hsel, _⟩ | ⟨_, hsel, _⟩ | ⟨_, _, heq⟩ | ⟨h0, _⟩ | ⟨hE, _⟩
    · exact absurd hsel hp
    · exact absurd hsel hp
    · simp only [List.nil_append]
      rw [heq]
      simp [decoder_side_read, decoder_side_unref]
    · exact absurd rfl h0
    · simp [AVERROR_EOF] at hE
  | cons r rest ih =>
    simp only [List.cons_append]
    rw [read_loop.eq_2, read_loop.eq_2]
    by_cases h0 : r.ret = 0
    · by_cases hsel : r.packet.stream_index = vsi
      · by_cases hpr :
            (process_packet cc (decoder (fed ++ [r.packet])) r.packet i_frames next).ret < 0
        · simp [h0, hsel, hpr]
        · simp [h0, hsel, hpr, decoder_side_read, decoder_side_unref, decoder_side_append, ih]
      · simp [h0, hsel, decoder_side_read, decoder_side_unref, ih]
    · simp [h0]

theorem decode_failure_is_failure (c : Call) (h : c.is_decode_failure = true) :
    c.is_failure = true := by
  cases c <;> simp_all [Call.is_decode_failure, Call.is_failure]

theorem process_packet_no_read (cc : Handle) (resp : FeedResp) (packet : AVPacket)
    (i_frames : List AVFrame) (next : Handle) :
    ∀ c ∈ (process_packet cc resp packet i_frames next).calls,
      c.is_end_of_stream = false ∧ c.is_read_failure = false := by
  obtain ⟨-, -, -, tail, hcalls, htail⟩ := process_packet_spec cc resp packet i_frames next
  rw [hcalls]
  intro c hc
  rcases List.mem_cons.mp hc with rfl | hc
  · exact ⟨rfl, rfl⟩
  · have := htail c hc
    cases c <;> simp_all [Call.is_work, Call.is_end_of_stream, Call.is_read_failure]

theorem process_packet_decode_failure (cc : Handle) (resp : FeedResp) (packet : AVPacket)
    (i_frames : List AVFrame) (next : Handle)
    (hz : (process_packet cc resp packet i_frames next).ret = 0) :
    ∀ c ∈ (process_packet cc resp packet i_frames next).calls, c.is_decode_failure = false := by
  obtain ⟨-, -, p3, -⟩ := process_packet_spec cc resp packet i_frames next
  obtain ⟨-, -, -, d⟩ := p3 hz
  intro c hc
  cases h : c.is_decode_failure with
  | false => rfl
  | true =>
    have := decode_failure_is_failure c h
    rw [d c hc] at this
    cases this

/-- What the calls of a run of the read loop tell about its result. -/
theorem read_loop_trace (decoder : List AVPacket → FeedResp) (fc cc : Handle) (vsi : Int)
    (reads : List ReadResp) (fed : List AVPacket) (i_frames : List AVFrame) (next : Handle) :
    ((∃ c ∈ (read_loop decoder fc cc vsi reads fed i_frames next).calls,
        c.is_end_of_stream = true) ↔
      ∃ fs, (read_loop decoder fc cc vsi reads fed i_frames next).result = .ok fs) ∧
    ((∃ c ∈ (read_loop decoder fc cc vsi reads fed i_frames next).calls,
        c.is_read_failure = true) →
      (read_loop decoder fc cc vsi reads fed i_frames next).result
        = .throw "Error reading frames from input file") ∧
    ((∃ c ∈ (read_loop decoder fc cc vsi reads fed i_frames next).calls,
        c.is_decode_failure = true) →
      (read_loop decoder fc cc vsi reads fed i_frames next).result
        = .throw "Error processing packet") ∧
    ((∃ fs, (read_loop decoder fc cc vsi reads fed i_frames next).result = .ok fs) →
      ∀ c ∈ (read_loop decoder fc cc vsi reads fed i_frames next).calls,
        c.is_failure = false) := by
  induction reads generalizing fed i_frames next with
  | nil =>
    simp [read_loop, Call.is_end_of_stream, Call.is_read_failure, Call.is_decode_failure,
      Call.is_failure, AVERROR_EOF]
  | cons r rest ih =>
    have hnr := process_packet_no_read cc (decoder (fed ++ [r.packet])) r.packet i_frames next
    obtain ⟨-, -, p3, -⟩ :=
      process_packet_spec cc (decoder (fed ++ [r.packet])) r.packet i_frames next
    rcases read_loop_cons decoder fc cc vsi r rest fed i_frames next with
      ⟨h0, hsel, hp, heq⟩ | ⟨h0, hsel, hp, heq⟩ | ⟨h0, hsel, heq⟩ | ⟨h0, hE, heq⟩ | ⟨hE, heq⟩
    · rw [heq]
      refine ⟨⟨?_, ?_⟩, ?_, fun _ => rfl, ?_⟩
      · rintro ⟨c, hc, he⟩
        simp only [List.mem_cons, List.mem_append, List.not_mem_nil, or_false] at hc
        rcases hc with rfl | hc | rfl
        · simp [Call.is_end_of_stream, AVERROR_EOF] at he
        · rw [(hnr c hc).1] at he
          cases he
        · cases he
      · rintro ⟨fs, hfs⟩
        cases hfs
      · rintro ⟨c, hc, he⟩
        simp only [List.mem_cons, List.mem_append, List.not_mem_nil, or_false] at hc
        rcases hc with rfl | hc | rfl
        · simp [Call.is_read_failure] at he
        · rw [(hnr c hc).2] at he
          cases he
        · cases he
      · rintro ⟨fs, hfs⟩
        cases hfs
    · rw [heq]
      obtain ⟨i1, i2, i3, i4⟩ := ih (fed ++ [r.packet])
        (process_packet cc (decoder (fed ++ [r.packet])) r.packet i_frames next).i_frames
        (process_packet cc (decoder (fed ++ [r.packet])) r.packet i_frames next).next
      have hdf := process_packet_decode_failure cc (decoder (fed ++ [r.packet])) r.packet
        i_frames next hp
      obtain ⟨-, -, -, d⟩ := p3 hp
      refine ⟨⟨?_, ?_⟩, ?_, ?_, ?_⟩
      · rintro ⟨c, hc, he⟩
        simp only [List.mem_cons, List.mem_append] at hc
        rcases hc with rfl | hc | rfl | hc
        · simp [Call.is_end_of_stream, AVERROR_EOF] at he
        · rw [(hnr c hc).1] at he
          cases he
        · cases he
        · exact i1.mp ⟨c, hc, he⟩
      · intro hfs
        obtain ⟨c, hc, he⟩ := i1.mpr hfs
        exact ⟨c, by simp only [List.mem_cons, List.mem_append]; right; right; right; exact hc,
          he⟩
      · rintro ⟨c, hc, he⟩
        simp only [List.mem_cons, List.mem_append] at hc
        rcases hc with rfl | hc | rfl | hc
        · simp [Call.is_read_failure] at he
        · rw [(hnr c hc).2] at he
          cases he
        · cases he
        · exact i2 ⟨c, hc, he⟩
      · rintro ⟨c, hc, he⟩
        simp only [List.mem_cons, List.mem_append] at hc
        rcases hc with rfl | hc | rfl | hc
        · cases he
        · rw [hdf c hc] at he
          cases he
        · cases he
        · exact i3 ⟨c, hc, he⟩
      · intro hfs c hc
        simp only [List.mem_cons, List.mem_append] at hc
        rcases hc with rfl | hc | rfl | hc
        · simp [Call.is_failure]
        · exact d c hc
        · rfl
        · exact i4 hfs c hc
    · rw [heq]
      obtain ⟨i1, i2, i3, i4⟩ := ih fed i_frames next
      refine ⟨⟨?_, ?_⟩, ?_, ?_, ?_⟩
      · rintro ⟨c, hc, he⟩
        simp only [List.mem_cons] at hc
        rcases hc with rfl | rfl | hc
        · simp [Call.is_end_of_stream, AVERROR_EOF] at he
        · cases he
        · exact i1.mp ⟨c, hc, he⟩
      · intro hfs
        obtain ⟨c, hc, he⟩ := i1.mpr hfs
        exact ⟨c, by simp only [List.mem_cons]; right; right; exact hc, he⟩
      · rintro ⟨c, hc, he⟩
        simp only [List.mem_cons] at hc
        rcases hc with rfl | rfl | hc
        · simp [Call.is_read_failure] at he
        · cases he
        · exact i2 ⟨c, hc, he⟩
      · rintro ⟨c, hc, he⟩
        simp only [List.mem_cons] at hc
        rcases hc with rfl | rfl | hc
        · cases he
        · cases he
        · exact i3 ⟨c, hc, he⟩
      · intro hfs c hc
        simp only [List.mem_cons] at hc
        rcases hc with rfl | rfl | hc
        · simp [Call.is_failure]
        · rfl
        · exact i4 hfs c hc
    · rw [heq]
      simp [Call.is_end_of_stream, Call.is_read_failure, Call.is_decode_failure, hE]
    · rw [heq]
      simp [Call.is_end_of_stream, Call.is_read_failure, Call.is_decode_failure,
        Call.is_failure, hE]

theorem render_frame_line_append (f : AVFrame) (l : List Ins) :
    render (frame_line f ++ l) = (render l).map (printed_line f ++ ·) := by
  cases h : render l <;> simp [frame_line, render, h, printed_line, String.append_assoc]

theorem render_frame_lines (i_frames : List AVFrame) :
    render (i_frames.flatMap frame_line) = some (text_of (i_frames.map printed_line)) := by
  induction i_frames with
  | nil => rfl
  | cons f rest ih =>
    rw [List.flatMap_cons, render_frame_line_append, ih]
    rfl

theorem extract_iframes_eq (lib : Lib) (v : Video) (fc : AVFormatContext) (cc : Handle)
    (hfc : v.format_context = some fc) (hcc : v.codec_context = some cc) :
    extract_iframes lib v
      = read_loop lib.decoder fc.handle cc v.video_stream_index (lib.source fc.url).reads [] []
          lib.next := by
  simp only [extract_iframes, hfc, hcc]

/-! ## The claims -/

/-- C1. A successful `extract_iframes` returns exactly the key pictures among the
pictures received from the decoder, in the order received: the received pictures
are those the decoder made available for the packets of the selected stream, the
result is their sub-list of type I, and its length is their number.  A container
without packets gives the empty result, and so does an undisturbed run without
key pictures. -/
theorem extract_iframes_key_pictures (lib : Lib) (v : Video) (fc : AVFormatContext)
    (cc : Handle) (hfc : v.format_context = some fc) (hcc : v.codec_context = some cc) :
    (∀ fs, (extract_iframes lib v).result = .ok fs →
      received (extract_iframes lib v).calls
          = pictures lib.decoder [] (selected v.video_stream_index (lib.source fc.url).reads) ∧
      fs = (received (extract_iframes lib v).calls).filter AVFrame.is_key ∧
      fs.length = (received (extract_iframes lib v).calls).countP AVFrame.is_key) ∧
    ((lib.source fc.url).reads = [] → (extract_iframes lib v).result = .ok []) ∧
    (end_code (lib.source fc.url).reads = AVERROR_EOF →
      (∀ h ∈ feeds [] (selected v.video_stream_index (lib.source fc.url).reads),
        feed_ok (lib.decoder h) = true) →
      (∀ f ∈ pictures lib.decoder [] (selected v.video_stream_index (lib.source fc.url).reads),
        f.is_key = false) →
      (extract_iframes lib v).result = .ok []) := by
  rw [extract_iframes_eq lib v fc cc hfc hcc]
  have hres := read_loop_result lib.decoder fc.handle cc v.video_stream_index
    (lib.source fc.url).reads [] [] lib.next
  refine ⟨fun fs hok => ?_, fun hnil => ?_, fun hend hfeeds hnokey => ?_⟩
  · have hrec := read_loop_received lib.decoder fc.handle cc v.video_stream_index
      (lib.source fc.url).reads [] [] lib.next fs hok
    rw [hres] at hok
    unfold expected at hok
    split_ifs at hok
    simp only [Outcome.ok.injEq, List.nil_append] at hok
    rw [hrec]
    refine ⟨rfl, hok.symm, ?_⟩
    rw [← hok, List.countP_eq_length_filter]
  · rw [hnil]
    rfl
  · rw [hres]
    unfold expected
    have hall : (feeds [] (selected v.video_stream_index (lib.source fc.url).reads)).all
        (fun h => feed_ok (lib.decoder h)) = true := List.all_eq_true.mpr hfeeds
    have hfilter : (pictures lib.decoder []
        (selected v.video_stream_index (lib.source fc.url).reads)).filter AVFrame.is_key = [] :=
      List.filter_eq_nil_iff.mpr (fun f hf => by simp [hnokey f hf])
    simp [hall, hend, hfilter]

/-- Witness for C1 on the sample clip: five pictures are received and the two of
type I are returned, in order. -/
theorem extract_iframes_key_pictures_witness :
    sample_video.format_context = some ⟨0, "clip.mp4"⟩ ∧ sample_video.codec_context = some 1 ∧
    (extract_iframes sample_lib_built sample_video).result = .ok [⟨0, .I⟩, ⟨6006, .I⟩] ∧
    received (extract_iframes sample_lib_built sample_video).calls
      = [⟨0, .I⟩, ⟨3003, .P⟩, ⟨1001, .B⟩, ⟨2002, .B⟩, ⟨6006, .I⟩] ∧
    ([⟨0, .I⟩, ⟨6006, .I⟩] : List AVFrame)
      = (received (extract_iframes sample_lib_built sample_video).calls).filter AVFrame.is_key :=
  ⟨rfl, rfl, by decide, by decide,
    ((extract_iframes_key_pictures sample_lib_built sample_video ⟨0, "clip.mp4"⟩ 1 rfl rfl).1
      [⟨0, .I⟩, ⟨6006, .I⟩] (by decide)).2.1⟩


/-- C5. Read over the calls of the run, for every library: `extract_iframes`
returns a result set exactly when a read answered end-of-stream and no feed and no
receive signalled a failure (a receive signalling needs-more-input or
end-of-stream is none); a read that signals a failure other than end-of-stream
makes it fail with the read error, a feed or receive that signals one makes it
fail with the decode error, and after a call that signals a failure no unit is
read or fed.  Read over the answers of the library, when no allocation of the run
fails: a result set is returned exactly when the reads end with end-of-stream and
every feed of a selected packet is accepted and its receive loop ends on
needs-more-input or end-of-stream; otherwise the error is the decode error if a
feed is not so, and the read error if all are. -/
theorem extract_iframes_outcome (lib : Lib) (v : Video) (fc : AVFormatContext)
    (cc : Handle) (hfc : v.format_context = some fc) (hcc : v.codec_context = some cc) :
    ((∃ fs, (extract_iframes lib v).result = .ok fs) ↔
      ((∃ c ∈ (extract_iframes lib v).calls, c.is_end_of_stream = true) ∧
        ∀ c ∈ (extract_iframes lib v).calls, c.is_decode_failure = false)) ∧
    ((∃ c ∈ (extract_iframes lib v).calls, c.is_read_failure = true) →
      (extract_iframes lib v).result = .throw "Error reading frames from input file") ∧
    ((∃ c ∈ (extract_iframes lib v).calls, c.is_decode_failure = true) →
      (extract_iframes lib v).result = .throw "Error processing packet") ∧
    quiet_after_failure (extract_iframes lib v).calls ∧
    ((∀ h ∈ feeds [] (selected v.video_stream_index (lib.source fc.url).reads),
        memory_ok (lib.decoder h).steps = true) →
      ((∃ fs, (extract_iframes lib v).result = .ok fs) ↔
        (end_code (lib.source fc.url).reads = AVERROR_EOF ∧
          ∀ h ∈ feeds [] (selected v.video_stream_index (lib.source fc.url).reads),
            feed_clean (lib.decoder h) = true)) ∧
      ((∀ h ∈ feeds [] (selected v.video_stream_index (lib.source fc.url).reads),
          feed_clean (lib.decoder h) = true) →
        end_code (lib.source fc.url).reads ≠ AVERROR_EOF →
        (extract_iframes lib v).result = .throw "Error reading frames from input file") ∧
      ((∃ h ∈ feeds [] (selected v.video_stream_index (lib.source fc.url).reads),
          feed_clean (lib.decoder h) = false) →
        (extract_iframes lib v).result = .throw "Error processing packet")) := by
  rw [extract_iframes_eq lib v fc cc hfc hcc]
  have hres := read_loop_result lib.decoder fc.handle cc v.video_stream_index
    (lib.source fc.url).reads [] [] lib.next
  obtain ⟨t1, t2, t3, t4⟩ := read_loop_trace lib.decoder fc.handle cc v.video_stream_index
    (lib.source fc.url).reads [] [] lib.next
  refine ⟨⟨fun hok => ⟨t1.mpr hok, fun c hc => ?_⟩, fun h => t1.mp h.1⟩, t2, t3,
    read_loop_quiet _ _ _ _ _ _ _ _, fun hmem => ?_⟩
  · cases h : c.is_decode_failure with
    | false => rfl
    | true =>
      have hf := decode_failure_is_failure c h
      rw [t4 hok c hc] at hf
      cases hf
  · have hclean : ∀ h ∈ feeds [] (selected v.video_stream_index (lib.source fc.url).reads),
        feed_ok (lib.decoder h) = feed_clean (lib.decoder h) := by
      intro h hh
      simp [feed_ok, hmem h hh]
    have hall : (feeds [] (selected v.video_stream_index (lib.source fc.url).reads)).all
          (fun h => feed_ok (lib.decoder h)) = true ↔
        ∀ h ∈ feeds [] (selected v.video_stream_index (lib.source fc.url).reads),
          feed_clean (lib.decoder h) = true := by
      rw [List.all_eq_true]
      constructor
      · intro hx h hh
        rw [← hclean h hh]
        exact hx h hh
      · intro hx h hh
        rw [hclean h hh]
        exact hx h hh
    rw [hres]
    unfold expected
    refine ⟨⟨?_, ?_⟩, ?_, ?_⟩
    · rintro ⟨fs, hok⟩
      split_ifs at hok with ha hend
      exact ⟨hend, hall.mp ha⟩
    · rintro ⟨hend, hfeeds⟩
      rw [if_pos (hall.mpr hfeeds), if_pos hend]
      exact ⟨_, rfl⟩
    · intro hfeeds hend
      rw [if_pos (hall.mpr hfeeds), if_neg hend]
    · rintro ⟨h, hh, hbad⟩
      have hnot : ¬ (feeds [] (selected v.video_stream_index (lib.source fc.url).reads)).all
          (fun h => feed_ok (lib.decoder h)) = true := by
        intro ha
        have := hall.mp ha h hh
        rw [hbad] at this
        cases this
      rw [if_neg hnot]

/-- Witness for C5: the decoder signals invalid data on a receive after the second
video packet; the extraction fails with the decode error, and the failing receive
is the last call made on the decoder. -/
theorem extract_iframes_outcome_witness :
    sample_video.format_context = some ⟨0, "clip.mp4"⟩ ∧ sample_video.codec_context = some 1 ∧
    (extract_iframes decode_fails_lib sample_video).calls.filter
        (fun c => c.is_work || c.is_receive)
      = [.av_read_frame 0 0 (some ⟨0, 10⟩), .av_read_frame 0 0 (some ⟨1, 11⟩),
          .avcodec_send_packet 1 ⟨1, 11⟩ 0, .avcodec_receive_frame 1 (-11) none,
          .av_read_frame 0 0 (some ⟨1, 12⟩), .avcodec_send_packet 1 ⟨1, 12⟩ 0,
          .avcodec_receive_frame 1 0 (some ⟨0, .I⟩),
          .avcodec_receive_frame 1 (-1094995529) none] ∧
    (extract_iframes decode_fails_lib sample_video).result = .throw "Error processing packet" :=
  ⟨rfl, rfl, by decide,
    (extract_iframes_outcome decode_fails_lib sample_video ⟨0, "clip.mp4"⟩ 1 rfl rfl).2.2.1
      ⟨.avcodec_receive_frame 1 (-1094995529) none, by decide, by decide⟩⟩

/-- C9. Along every run the units fed to the decoder are exactly the units read
whose `stream_index` is the selected one, in read order; and putting a unit of
another stream anywhere among the reads changes neither the result nor the calls
made on the decoder side. -/
theorem extract_iframes_feeds_selected (lib : Lib) (v : Video) (fc : AVFormatContext)
    (cc : Handle) (hfc : v.format_context = some fc) (hcc : v.codec_context = some cc) :
    units_sent (extract_iframes lib v).calls
      = (units_of_reads (extract_iframes lib v).calls).filter
          (fun p => decide (p.stream_index = v.video_stream_index)) ∧
    ∀ (other : Lib) (a b : List ReadResp) (p : AVPacket),
      other.decoder = lib.decoder → other.next = lib.next →
      (lib.source fc.url).reads = a ++ b →
      (other.source fc.url).reads = a ++ ⟨0, p⟩ :: b →
      p.stream_index ≠ v.video_stream_index →
      (extract_iframes other v).result = (extract_iframes lib v).result ∧
      decoder_side (extract_iframes other v).calls = decoder_side (extract_iframes lib v).calls := by
  refine ⟨?_, fun other a b p hdec hnext hreads hmore hp => ?_⟩
  · rw [extract_iframes_eq lib v fc cc hfc hcc]
    exact read_loop_units _ _ _ _ _ _ _ _
  · rw [extract_iframes_eq lib v fc cc hfc hcc, extract_iframes_eq other v fc cc hfc hcc,
      hdec, hnext, hreads, hmore]
    exact read_loop_insert lib.decoder fc.handle cc v.video_stream_index a b p hp [] [] lib.next

/-- Witness for C9 on the sample clip, with a packet of stream 2 put in. -/
theorem extract_iframes_feeds_selected_witness :
    sample_video.format_context = some ⟨0, "clip.mp4"⟩ ∧ sample_video.codec_context = some 1 ∧
    units_sent (extract_iframes sample_lib_built sample_video).calls
      = [⟨1, 11⟩, ⟨1, 12⟩, ⟨1, 14⟩] ∧
    (extract_iframes sample_lib_more sample_video).result
      = (extract_iframes sample_lib_built sample_video).result ∧
    decoder_side (extract_iframes sample_lib_more sample_video).calls
      = decoder_side (extract_iframes sample_lib_built sample_video).calls :=
  ⟨rfl, rfl, by decide,
    (extract_iframes_feeds_selected sample_lib_built sample_video ⟨0, "clip.mp4"⟩ 1 rfl rfl).2
      sample_lib_more [⟨0, ⟨0, 10⟩⟩, ⟨0, ⟨1, 11⟩⟩] [⟨0, ⟨1, 12⟩⟩, ⟨0, ⟨0, 13⟩⟩, ⟨0, ⟨1, 14⟩⟩]
      ⟨2, 99⟩ rfl rfl rfl rfl (by decide)⟩

/-- C10. After a feed the decoder accepts, `process_packet` either fails, and
then `extract_iframes` throws without reading another unit, or returns 0 after
one receive more than the pictures the decoder made available, having received
all of them and appended those of type I; it returns 0 whenever the receive that
ends the loop signals needs-more-input or end-of-stream and no allocation fails,
and only then is the next unit read. -/
theorem process_packet_drains (cc : Handle) (resp : FeedResp) (packet : AVPacket)
    (i_frames : List AVFrame) (next : Handle) (hsend : 0 ≤ resp.send_ret) :
    ((process_packet cc resp packet i_frames next).ret = 0 ∨
      (process_packet cc resp packet i_frames next).ret < 0) ∧
    ((process_packet cc resp packet i_frames next).ret = 0 ↔
      (receives_ok resp.steps = true ∧ memory_ok resp.steps = true)) ∧
    ((process_packet cc resp packet i_frames next).ret = 0 →
      receive_count (process_packet cc resp packet i_frames next).calls
          = (offered resp.steps).length + 1 ∧
      received (process_packet cc resp packet i_frames next).calls = offered resp.steps ∧
      (process_packet cc resp packet i_frames next).i_frames
          = i_frames ++ (offered resp.steps).filter AVFrame.is_key) ∧
    ∀ (decoder : List AVPacket → FeedResp) (fc : Handle) (rest : List ReadResp)
      (fed : List AVPacket), decoder (fed ++ [packet]) = resp →
      ((process_packet cc resp packet i_frames next).ret < 0 →
        read_loop decoder fc cc packet.stream_index (⟨0, packet⟩ :: rest) fed i_frames next
          = ⟨.throw "Error processing packet",
              .av_read_frame fc 0 (some packet) ::
                ((process_packet cc resp packet i_frames next).calls
                  ++ [.av_packet_unref packet]),
              (process_packet cc resp packet i_frames next).next⟩) ∧
      ((process_packet cc resp packet i_frames next).ret = 0 →
        (read_loop decoder fc cc packet.stream_index (⟨0, packet⟩ :: rest) fed i_frames
            next).calls
          = .av_read_frame fc 0 (some packet) ::
              ((process_packet cc resp packet i_frames next).calls
                ++ .av_packet_unref packet ::
                  (read_loop decoder fc cc packet.stream_index rest (fed ++ [packet])
                    (process_packet cc resp packet i_frames next).i_frames
                    (process_packet cc resp packet i_frames next).next).calls)) := by
  obtain ⟨p1, p2, p3, -⟩ := process_packet_spec cc resp packet i_frames next
  refine ⟨p1, ?_, fun hz => ?_, fun decoder fc rest fed hdec => ?_⟩
  · rw [p2]
    simp [feed_ok, feed_clean, hsend]
  · obtain ⟨a, b, c, -⟩ := p3 hz
    exact ⟨c, b, a⟩
  · subst hdec
    rcases read_loop_cons decoder fc cc packet.stream_index ⟨0, packet⟩ rest fed i_frames next
      with ⟨_, _, hp, heq⟩ | ⟨_, _, hp, heq⟩ | ⟨_, hsel, _⟩ | ⟨h0, _⟩ | ⟨hE, _⟩
    · refine ⟨fun _ => heq, fun hz => ?_⟩
      simp only [] at hp hz
      omega
    · refine ⟨fun hneg => ?_, fun _ => by rw [heq]⟩
      simp only [] at hp hneg
      omega
    · exact absurd rfl hsel
    · exact absurd rfl h0
    · simp [AVERROR_EOF] at hE

/-- Witness for C10: the second video packet of the sample clip, after which the
decoder makes three pictures available, the first of them a key picture. -/
theorem process_packet_drains_witness :
    (0 : Int) ≤ (sample_lib.decoder [⟨1, 11⟩, ⟨1, 12⟩]).send_ret ∧
    (offered (sample_lib.decoder [⟨1, 11⟩, ⟨1, 12⟩]).steps).length = 3 ∧
    receive_count
        (process_packet 1 (sample_lib.decoder [⟨1, 11⟩, ⟨1, 12⟩]) ⟨1, 12⟩ [] 4).calls = 4 ∧
    (process_packet 1 (sample_lib.decoder [⟨1, 11⟩, ⟨1, 12⟩]) ⟨1, 12⟩ [] 4).i_frames
      = [⟨0, .I⟩] :=
  ⟨by decide, by decide,
    ((process_packet_drains 1 (sample_lib.decoder [⟨1, 11⟩, ⟨1, 12⟩]) ⟨1, 12⟩ [] 4
      (by decide)).2.2.1 (by decide)).1,
    by decide⟩


theorem argc_of_argument (argv : List String) (filename : String)
    (harg : argv.get? 1 = some filename) : ¬ ((argv.length : Int) < 2) := by
  have h : 1 < argv.length := by
    rcases Nat.lt_or_ge 1 argv.length with h | h
    · exact h
    · rw [List.get?_eq_none.mpr h] at harg
      cases harg
  omega

/-- C2, what the code does. A failure of the constructor is not handled the way
a failure of `extract_iframes` is: `Video video(argv[1])` stands before the `try`
block, so the exception leaves `main` uncaught and the program ends in
`std::terminate`, `main` printing nothing, while an exception thrown by
`extract_iframes` is caught, reported on `std::cerr` and turned into exit code 1. -/
theorem main_failure_handling (lib : Lib) (argv : List String) (filename : String)
    (harg : argv.get? 1 = some filename) :
    (∀ what, (Video_ctor lib filename).result = .throw what →
      main lib argv = ⟨.terminated what, [], [], (Video_ctor lib filename).calls⟩) ∧
    (∀ video what, (Video_ctor lib filename).result = .ok video →
      (extract_iframes { lib with next := (Video_ctor lib filename).next } video).result
        = .throw what →
      (main lib argv).exit = .returned 1 ∧ (main lib argv).stdout = [] ∧
      (main lib argv).stderr = [.str "Error: ", .str what, .endl]) := by
  have hargc := argc_of_argument argv filename harg
  refine ⟨fun what hctor => ?_, fun video what hctor hext => ?_⟩
  · simp only [main, hargc, if_false, harg, hctor]
  · simp only [main, hargc, if_false, harg, hctor, hext, and_self]

/-- The run C2 fails on: the path does not exist, `avformat_open_input` fails, and
the program ends in `std::terminate` instead of returning 1. -/
theorem main_missing_file :
    (["iframes", "missing.mp4"] : List String).get? 1 = some "missing.mp4" ∧
    (Video_ctor sample_lib "missing.mp4").result = .throw "Error opening video file" ∧
    main sample_lib ["iframes", "missing.mp4"]
      = ⟨.terminated "Error opening video file", [], [],
          [.avformat_open_input "missing.mp4" (-2) 0]⟩ :=
  ⟨rfl, by decide,
    (main_failure_handling sample_lib ["iframes", "missing.mp4"] "missing.mp4" rfl).1
      "Error opening video file" (by decide)⟩

/-- C4. With the container opened and probed, the constructor fails with the
no-video-stream error exactly when no stream is of type video, and then its calls
are the open, the probe and the release of the container, no decoder being looked
up or allocated; otherwise the index it selects is the smallest one of a video
stream, the decoder is looked up for that stream, and a session that gets built
holds that index. -/
theorem ctor_selects_first_video_stream (lib : Lib) (filename : String)
    (hopen : 0 ≤ (lib.source filename).open_ret)
    (hinfo : 0 ≤ (lib.source filename).stream_info_ret)
    (hlen : (lib.source filename).streams.length < 2 ^ 31) :
    ((∀ s ∈ (lib.source filename).streams, s.codec_type ≠ AVMediaType.VIDEO) ↔
      (Video_ctor lib filename).result = .throw "Error finding video stream") ∧
    ((∀ s ∈ (lib.source filename).streams, s.codec_type ≠ AVMediaType.VIDEO) →
      (Video_ctor lib filename).calls =
        [.avformat_open_input filename (lib.source filename).open_ret lib.next,
          .avformat_find_stream_info lib.next (lib.source filename).stream_info_ret,
          .avformat_close_input lib.next]) ∧
    (∀ k s, (lib.source filename).streams.get? k = some s → s.codec_type = AVMediaType.VIDEO →
      (∀ j, j < k → ∀ t, (lib.source filename).streams.get? j = some t →
        t.codec_type ≠ AVMediaType.VIDEO) →
      find_video_stream (lib.source filename).streams 0 (-1) = (k : Int) ∧
      (Video_ctor lib filename).calls.take 3 =
        [.avformat_open_input filename (lib.source filename).open_ret lib.next,
          .avformat_find_stream_info lib.next (lib.source filename).stream_info_ret,
          .avcodec_find_decoder s.codec_id (lib.find_decoder s.codec_id)] ∧
      ∀ v, (Video_ctor lib filename).result = .ok v → v.video_stream_index = (k : Int)) := by
  have h1 : ¬ (lib.source filename).open_ret < 0 := by omega
  have h2 : ¬ (lib.source filename).stream_info_ret < 0 := by omega
  have key : ∀ k s, (lib.source filename).streams.get? k = some s →
      s.codec_type = AVMediaType.VIDEO →
      (∀ j, j < k → ∀ t, (lib.source filename).streams.get? j = some t →
        t.codec_type ≠ AVMediaType.VIDEO) →
      find_video_stream (lib.source filename).streams 0 (-1) = (k : Int) := by
    intro k s hk hs hmin
    rw [find_video_stream_first _ 0 k (-1) s hk hs hmin, Nat.zero_add]
    have hklen : k < (lib.source filename).streams.length := by
      rcases Nat.lt_or_ge k (lib.source filename).streams.length with h | h
      · exact h
      · rw [List.get?_eq_none.mpr h] at hk
        cases hk
    exact static_cast_int_small k (by omega)
  have found : ∀ k s, (lib.source filename).streams.get? k = some s →
      s.codec_type = AVMediaType.VIDEO →
      (∀ j, j < k → ∀ t, (lib.source filename).streams.get? j = some t →
        t.codec_type ≠ AVMediaType.VIDEO) →
      (Video_ctor lib filename).result ≠ .throw "Error finding video stream" ∧
      (Video_ctor lib filename).calls.take 3 =
        [.avformat_open_input filename (lib.source filename).open_ret lib.next,
          .avformat_find_stream_info lib.next (lib.source filename).stream_info_ret,
          .avcodec_find_decoder s.codec_id (lib.find_decoder s.codec_id)] ∧
      ∀ v, (Video_ctor lib filename).result = .ok v → v.video_stream_index = (k : Int) := by
    intro k s hk hs hmin
    have hv := key k s hk hs hmin
    have hne : ¬ ((k : Int) = -1) := by omega
    have hst : stream_at (lib.source filename).streams (k : Int) = some s := by
      rw [stream_at_natCast, hk]
    unfold Video_ctor
    simp only [h1, h2, hv, hne, hst, if_false]
    repeat' split
    all_goals simp
  have nothing : (∀ s ∈ (lib.source filename).streams, s.codec_type ≠ AVMediaType.VIDEO) →
      (Video_ctor lib filename).result = .throw "Error finding video stream" ∧
      (Video_ctor lib filename).calls =
        [.avformat_open_input filename (lib.source filename).open_ret lib.next,
          .avformat_find_stream_info lib.next (lib.source filename).stream_info_ret,
          .avformat_close_input lib.next] := by
    intro hno
    have hv := find_video_stream_none (lib.source filename).streams 0 (-1) hno
    unfold Video_ctor
    simp [h1, h2, hv]
  refine ⟨⟨fun hno => (nothing hno).1, fun hthrow => ?_⟩, fun hno => (nothing hno).2,
    fun k s hk hs hmin => ⟨key k s hk hs hmin, (found k s hk hs hmin).2⟩⟩
  rcases first_video_cases (lib.source filename).streams with hno | ⟨k, s, hk, hs, hmin⟩
  · exact hno
  · exact absurd hthrow (found k s hk hs hmin).1

/-- Witness for C4: the sample clip, whose stream 0 is audio and stream 1 video. -/
theorem ctor_selects_first_video_stream_witness :
    (0 : Int) ≤ (sample_lib.source "clip.mp4").open_ret ∧
    (0 : Int) ≤ (sample_lib.source "clip.mp4").stream_info_ret ∧
    (sample_lib.source "clip.mp4").streams.length < 2 ^ 31 ∧
    find_video_stream (sample_lib.source "clip.mp4").streams 0 (-1) = ((1 : Nat) : Int) ∧
    (Video_ctor sample_lib "clip.mp4").result = .ok sample_video ∧
    sample_video.video_stream_index = 1 :=
  ⟨by decide, by decide, by decide,
    ((ctor_selects_first_video_stream sample_lib "clip.mp4" (by decide) (by decide)
      (by decide)).2.2 1 ⟨.VIDEO, 27⟩ rfl rfl (by decide)).1,
    by decide, rfl⟩

/-- C6, as amended. After a successful extraction `main` returns 0, writes
nothing to `std::cerr`, and writes to `std::cout` one line for each entry of the
result, in order, each made of `I-frame found at timestamp: ` and the decimal
value of the entry's `pts`, whatever that value is. -/
theorem main_prints_key_frames (lib : Lib) (argv : List String) (filename : String)
    (video : Video) (i_frames : List AVFrame) (harg : argv.get? 1 = some filename)
    (hctor : (Video_ctor lib filename).result = .ok video)
    (hext : (extract_iframes { lib with next := (Video_ctor lib filename).next } video).result
      = .ok i_frames) :
    (main lib argv).exit = .returned 0 ∧ (main lib argv).stderr = [] ∧
    (main lib argv).stdout = i_frames.flatMap frame_line ∧
    render (main lib argv).stdout = some (text_of (i_frames.map printed_line)) := by
  have hargc := argc_of_argument argv filename harg
  have hout : (main lib argv).stdout = i_frames.flatMap frame_line := by
    simp only [main, hargc, if_false, harg, hctor, hext]
  refine ⟨?_, ?_, hout, ?_⟩
  · simp only [main, hargc, if_false, harg, hctor, hext]
  · simp only [main, hargc, if_false, harg, hctor, hext]
  · rw [hout, render_frame_lines]

/-- Witness for C6 as amended: the sample clip, two lines. -/
theorem main_prints_key_frames_witness :
    (["iframes", "clip.mp4"] : List String).get? 1 = some "clip.mp4" ∧
    (Video_ctor sample_lib "clip.mp4").result = .ok sample_video ∧
    (main sample_lib ["iframes", "clip.mp4"]).exit = .returned 0 ∧
    render (main sample_lib ["iframes", "clip.mp4"]).stdout
      = some "I-frame found at timestamp: 0\nI-frame found at timestamp: 6006\n" :=
  ⟨rfl, by decide,
    (main_prints_key_frames sample_lib ["iframes", "clip.mp4"] "clip.mp4" sample_video
      [⟨0, .I⟩, ⟨6006, .I⟩] rfl (by decide) (by decide)).1,
    by decide⟩

/-- Counterexample to C6 as stated: for a key picture without a timestamp the
line ends in the decimal value of `AV_NOPTS_VALUE`, not in the word `unknown`. -/
theorem main_prints_no_unknown :
    (Video_ctor nopts_lib "clip.mp4").result = .ok nopts_video ∧
    (extract_iframes { nopts_lib with next := 3 } nopts_video).result
      = .ok [⟨AV_NOPTS_VALUE, .I⟩] ∧
    (main nopts_lib ["iframes", "clip.mp4"]).exit = .returned 0 ∧
    render (main nopts_lib ["iframes", "clip.mp4"]).stdout
      = some "I-frame found at timestamp: -9223372036854775808\n" ∧
    render (main nopts_lib ["iframes", "clip.mp4"]).stdout
      ≠ some (text_of ([(⟨AV_NOPTS_VALUE, .I⟩ : AVFrame)].map described_line)) := by
  decide

/-- C7. Whenever the constructor throws, the resources it releases are the ones
it acquired, in reverse order of acquisition and each once; and when it builds a
session it has acquired the container, the decoder state, the opened decoder and
the frame and released nothing, and the destructor releases these four in reverse
order of acquisition, each once. -/
theorem ctor_resources (lib : Lib) (filename : String) :
    (∀ what, (Video_ctor lib filename).result = .throw what →
      released (Video_ctor lib filename).calls = (acquired (Video_ctor lib filename).calls).reverse
        ∧ (released (Video_ctor lib filename).calls).Nodup) ∧
    (∀ v, (Video_ctor lib filename).result = .ok v →
      acquired (Video_ctor lib filename).calls
          = [.container lib.next, .context (lib.next + 1), .opened (lib.next + 1),
              .buffer (lib.next + 2)]
        ∧ released (Video_ctor lib filename).calls = []
        ∧ released (Video_dtor v) = (acquired (Video_ctor lib filename).calls).reverse
        ∧ (released (Video_dtor v)).Nodup) := by
  unfold Video_ctor
  dsimp only
  repeat' split
  all_goals
    refine ⟨fun what h => ?_, fun v h => ?_⟩
  all_goals cases h
  all_goals simp_all [acquired, released, Video_dtor]

/-- Witness for C7: the frame allocation fails after the container, the decoder
state and the opened decoder were acquired. -/
theorem ctor_resources_witness :
    (Video_ctor no_frame_lib "clip.mp4").result = .throw "Error allocating frame" ∧
    acquired (Video_ctor no_frame_lib "clip.mp4").calls
      = [.container 0, .context 1, .opened 1] ∧
    released (Video_ctor no_frame_lib "clip.mp4").calls
      = (acquired (Video_ctor no_frame_lib "clip.mp4").calls).reverse :=
  ⟨by decide, by decide,
    ((ctor_resources no_frame_lib "clip.mp4").1 "Error allocating frame" (by decide)).1⟩

/-- C8. Copy-constructing from a session built from path `p` is running the
filename constructor on `p`: same calls, same outcome, same state afterwards.  The
handles of a session so built are the three it acquired itself, none of them a
handle of the original. -/
theorem copy_ctor_reopens (lib0 : Lib) (p : String) (other : Video)
    (hother : (Video_ctor lib0 p).result = .ok other)
    (lib : Lib) (hlater : (Video_ctor lib0 p).next ≤ lib.next) :
    Video_copy_ctor lib other = Video_ctor lib p ∧
    ∀ v, (Video_copy_ctor lib other).result = .ok v →
      v.handles = [lib.next, lib.next + 1, lib.next + 2] ∧
      ∀ h ∈ v.handles, h ∉ other.handles := by
  obtain ⟨hfc, hcc, hfr, hnext⟩ := ctor_ok_fields lib0 p other hother
  have heq : Video_copy_ctor lib other = Video_ctor lib p := copy_ctor_eq lib other _ hfc
  refine ⟨heq, fun v hv => ?_⟩
  rw [heq] at hv
  obtain ⟨vfc, vcc, vfr, -⟩ := ctor_ok_fields lib p v hv
  rw [hnext] at hlater
  simp only [Video.handles, hfc, hcc, hfr, vfc, vcc, vfr, Option.map_some', Option.toList_some,
    List.singleton_append, List.cons_append, List.nil_append, List.mem_cons, List.mem_singleton,
    List.not_mem_nil, or_false, true_and]
  intro h hh
  unfold Handle at *
  omega

/-- Witness for C8: a copy of the sample session. -/
theorem copy_ctor_reopens_witness :
    (Video_ctor sample_lib "clip.mp4").result = .ok sample_video ∧
    (Video_ctor sample_lib "clip.mp4").next ≤ sample_lib_built.next ∧
    Video_copy_ctor sample_lib_built sample_video = Video_ctor sample_lib_built "clip.mp4" ∧
    (Video_copy_ctor sample_lib_built sample_video).result
      = .ok ⟨some ⟨3, "clip.mp4"⟩, some 27, some 4, some 5, 1⟩ :=
  ⟨by decide, by decide,
    (copy_ctor_reopens sample_lib "clip.mp4" sample_video (by decide) sample_lib_built
      (by decide)).1,
    by decide⟩

end IFrames
